import Mathlib

/-!
Verification of the go-ukify UKI builder pipeline.

This development shallowly embeds the Builder state machine of package uki
(the Build orchestration in the main builder file, and the nine section
generators of generate.go) as explicit state-passing Lean functions.

External collaborators - the pesign package, the measure package, the
filesystem, the assembler, and the kernel-version prober - are modelled by
an Env record of result oracles, following the collaborator contracts of
the specification.  The Builder record mirrors the Go struct field by
field; the World record is the observable trace: files written, the
mappings passed to the Measurement Engine, log lines, and diagnostic
print calls.
-/

set_option maxHeartbeats 1000000

namespace Ukify

/-- Byte strings, modelling Go byte slices. -/
abbrev Bytes := List UInt8

/-- Models the Go conversion from string to byte slice: the UTF-8 bytes. -/
def strBytes (s : String) : Bytes := s.toUTF8.toList

/-- The fixed set of section identifiers (package constants: OSRel, CMDLine,
Initrd, Splash, Uname, SBAT, PCRPKey, Linux, PCRSig). -/
inductive SectionName where
  | OSRel
  | CMDLine
  | Initrd
  | Splash
  | Uname
  | SBAT
  | PCRPKey
  | Linux
  | PCRSig
deriving DecidableEq, Repr

/-- A UKI section (types.UkiSection): name, backing path, and the Measure
and Append flags.  Go zero values mean omitted boolean literals are false;
we always write all four fields. -/
structure UkiSection where
  Name : SectionName
  Path : String
  Measure : Bool
  Append : Bool
deriving DecidableEq, Repr

/-- Abstract PCR signing key (types.RSAKey).  Only its public part is
observable to the pipeline, through PublicRSAKey. -/
structure RSAKey where
  pub : Nat
deriving DecidableEq, Repr

/-- Abstract Secure-Boot certificate signer (pesign.CertificateSigner). -/
structure CertificateSigner where
  certId : Nat
deriving DecidableEq, Repr

/-- Abstract PE signer (pesign.Signer), built from a certificate signer. -/
structure Signer where
  provider : CertificateSigner
deriving DecidableEq, Repr

/-- Abstract slog logger value. -/
structure SlogLogger where
  loggerId : Nat
deriving DecidableEq, Repr

/-- Abstract result of measure.GenerateSignedPCR. -/
structure PCRData where
  blob : Nat
deriving DecidableEq, Repr

/-- Errors.  noPCRSigner and noSBSigner are the two configuration errors
created by errors.New in Build; wrap models fmt.Errorf with percent-w;
ext models any error produced by an external collaborator. -/
inductive BuildError where
  | noPCRSigner
  | noSBSigner
  | wrap (msg : String) (e : BuildError)
  | ext (code : Nat)
deriving DecidableEq, Repr

/-- A configuration error is one of the two errors.New values made in the
signer-resolution phase of Build. -/
def BuildError.isConfigError : BuildError → Bool
  | .noPCRSigner => true
  | .noSBSigner => true
  | _ => false

/-- The process-wide slog level that slog.SetLogLoggerLevel installs. -/
inductive SlogLevel where
  | debug
  | info
  | warn
  | error
deriving DecidableEq, Repr

/-- Outcome of one step of the pipeline: normal return of nil, normal
return of an error, or a run-time panic (nil dereference). -/
inductive StepResult where
  | ok
  | fail (e : BuildError)
  | panicked
deriving DecidableEq, Repr

/-- The Builder struct, field for field.  Interface and pointer fields that
Go initializes to nil are Options.  sections, scratchDir, peSigner and
unsignedUKIPath are the private fields set during Build. -/
structure Builder where
  Arch : String
  Version : String
  SdStubPath : String
  SdBootPath : String
  KernelPath : String
  InitrdPath : String
  Cmdline : String
  OsRelease : String
  SecureBootSigner : Option CertificateSigner
  SBKey : String
  SBCert : String
  PCRSigner : Option RSAKey
  PCRKey : String
  Splash : String
  OutSdBootPath : String
  OutUKIPath : String
  Logger : Option SlogLogger
  LogLevel : String
  sections : List UkiSection
  scratchDir : String
  peSigner : Option Signer
  unsignedUKIPath : String
deriving DecidableEq, Repr

/-- Observable trace of a build: files written (most recent first),
the section mappings passed to measure.GenerateSignedPCR, log lines, and
the number of diagnostic PrintSystemdMeasurements calls. -/
structure World where
  fs : List (String × Bytes)
  measureCalls : List (List (SectionName × String))
  logs : List String
  printCalls : Nat
deriving DecidableEq, Repr

def emptyWorld : World := ⟨[], [], [], 0⟩

/-- Result oracles for every external collaborator the pipeline calls. -/
structure Env where
  slogDefault : SlogLogger
  newPCRSigner : String → Except BuildError RSAKey
  newSecureBootSigner : String → String → Except BuildError CertificateSigner
  mkdirTemp : Except BuildError String
  newSigner : CertificateSigner → Except BuildError Signer
  signErr : Signer → String → String → Option BuildError
  osReleaseFor : String → Except BuildError Bytes
  writeFileErr : String → Option BuildError
  readFile : String → Bytes × Option BuildError
  discoverKernelVersion : String → String × Option BuildError
  getSBAT : String → Except BuildError Bytes
  marshalPKIXPublicKey : Nat → Except BuildError Bytes
  pemEncodeRSAPublic : Bytes → Bytes
  generateSignedPCR : List (SectionName × String) → RSAKey → Nat → Except BuildError PCRData
  jsonMarshal : PCRData → Except BuildError Bytes
  assembleCall : String → List UkiSection → Except BuildError String
  removeAllErr : String → Option BuildError

/-- filepath.Join for a clean directory and a simple file name. -/
def joinPath (dir file : String) : String := dir ++ "/" ++ file

/-- os.WriteFile: the oracle decides success per path; on success the
written file is recorded in the trace. -/
def writeFile (env : Env) (w : World) (path : String) (content : Bytes) :
    Except BuildError World :=
  match env.writeFileErr path with
  | some e => .error e
  | none => .ok { w with fs := (path, content) :: w.fs }

/-- The PCR slot used for UKI measurements (constants.UKIPCR). -/
def UKIPCR : Nat := 11

/-- append(builder.sections, s). -/
def appendSection (b : Builder) (s : UkiSection) : Builder :=
  { b with sections := b.sections ++ [s] }

/-- The type of a section generator step. -/
abbrev Gen := Env → Builder → World → StepResult × Builder × World

/-- generateOSRel: use the supplied os-release file, or synthesize one into
the scratch directory; appends the OSRel section with Measure and Append. -/
def generateOSRel : Gen := fun env b w =>
  if b.OsRelease ≠ "" then
    (.ok, appendSection b ⟨.OSRel, b.OsRelease, true, true⟩, w)
  else
    match env.osReleaseFor b.Version with
    | .error e => (.fail e, b, w)
    | .ok osRelease =>
      match writeFile env w (joinPath b.scratchDir "os-release") osRelease with
      | .error e => (.fail e, b, w)
      | .ok w1 =>
        (.ok, appendSection b ⟨.OSRel, joinPath b.scratchDir "os-release", true, true⟩, w1)

/-- generateCmdline: write the configured command line verbatim into the
scratch directory; appends the CMDLine section with Measure and Append. -/
def generateCmdline : Gen := fun env b w =>
  match writeFile env w (joinPath b.scratchDir "cmdline") (strBytes b.Cmdline) with
  | .error e => (.fail e, b, w)
  | .ok w1 =>
    (.ok, appendSection b ⟨.CMDLine, joinPath b.scratchDir "cmdline", true, true⟩, w1)

/-- generateInitrd: reference the supplied initrd path directly. -/
def generateInitrd : Gen := fun _ b w =>
  (.ok, appendSection b ⟨.Initrd, b.InitrdPath, true, true⟩, w)

/-- generateSplash: read the supplied splash path discarding the read error
(data stays whatever the read produced, nil on open failure), or fall back
to the bundled logo; write it into the scratch directory. -/
def generateSplash : Gen := fun env b w =>
  let data : Bytes :=
    if b.Splash ≠ "" then (env.readFile b.Splash).1
    else strBytes "bundled-logo"
  match writeFile env w (joinPath b.scratchDir "splash.bmp") data with
  | .error e => (.fail e, b, w)
  | .ok w1 =>
    (.ok, appendSection b ⟨.Splash, joinPath b.scratchDir "splash.bmp", true, true⟩, w1)

/-- generateUname: probe the kernel image for its release string, ignoring
the probe error; on an empty result skip the section and succeed. -/
def generateUname : Gen := fun env b w =>
  let kernelVersion := (env.discoverKernelVersion b.KernelPath).1
  if kernelVersion = "" then
    (.ok, b, w)
  else
    match writeFile env w (joinPath b.scratchDir "uname") (strBytes kernelVersion) with
    | .error e => (.fail e, b, w)
    | .ok w1 =>
      (.ok, appendSection b ⟨.Uname, joinPath b.scratchDir "uname", true, true⟩, w1)

/-- generateSBAT: extract SBAT from the sd-stub and write a copy; the
section is measured but not appended (the stub already holds it). -/
def generateSBAT : Gen := fun env b w =>
  match env.getSBAT b.SdStubPath with
  | .error e => (.fail e, b, w)
  | .ok sbat =>
    match writeFile env w (joinPath b.scratchDir "sbat") sbat with
    | .error e => (.fail e, b, w)
    | .ok w1 =>
      (.ok, appendSection b ⟨.SBAT, joinPath b.scratchDir "sbat", true, false⟩, w1)

/-- generatePCRPublicKey: marshal the PCR signers public key and PEM-encode
it; dereferencing a nil PCRSigner interface would panic. -/
def generatePCRPublicKey : Gen := fun env b w =>
  match b.PCRSigner with
  | none => (.panicked, b, w)
  | some signer =>
    match env.marshalPKIXPublicKey signer.pub with
    | .error e => (.fail e, b, w)
    | .ok publicKeyBytes =>
      match writeFile env w (joinPath b.scratchDir "pcr-public.pem")
          (env.pemEncodeRSAPublic publicKeyBytes) with
      | .error e => (.fail e, b, w)
      | .ok w1 =>
        (.ok, appendSection b ⟨.PCRPKey, joinPath b.scratchDir "pcr-public.pem", true, true⟩, w1)

/-- generateKernel: reference the supplied kernel path directly. -/
def generateKernel : Gen := fun _ b w =>
  (.ok, appendSection b ⟨.Linux, b.KernelPath, true, true⟩, w)

/-- The name-to-path mapping generatePCRSig passes to the Measurement
Engine: exactly the sections currently flagged Measure (xslices.ToMap of
xslices.Filter on Measure). -/
def pcrSigMapping (b : Builder) : List (SectionName × String) :=
  (b.sections.filter fun s => s.Measure).map fun s => (s.Name, s.Path)

/-- generatePCRSig: pass the measured-section mapping to the Measurement
Engine, optionally print diagnostics when LogLevel is exactly "debug",
marshal and write the signed policy, and append the PCRSig section with
Measure false. -/
def generatePCRSig : Gen := fun env b w =>
  let sectionsData := pcrSigMapping b
  let w1 := { w with measureCalls := w.measureCalls ++ [sectionsData] }
  match b.PCRSigner with
  | none => (.panicked, b, w1)
  | some signer =>
    match env.generateSignedPCR sectionsData signer UKIPCR with
    | .error e => (.fail e, b, w1)
    | .ok pcrData =>
      let w2 := if b.LogLevel = "debug" then { w1 with printCalls := w1.printCalls + 1 } else w1
      match env.jsonMarshal pcrData with
      | .error e => (.fail e, b, w2)
      | .ok pcrSignatureData =>
        match writeFile env w2 (joinPath b.scratchDir "pcrpsig") pcrSignatureData with
        | .error e => (.fail e, b, w2)
        | .ok w3 =>
          (.ok, appendSection b ⟨.PCRSig, joinPath b.scratchDir "pcrpsig", false, true⟩, w3)

/-- The literal ordered list of the nine generators from the Build loop. -/
def generatorsList : List Gen :=
  [generateOSRel, generateCmdline, generateInitrd, generateSplash, generateUname,
   generateSBAT, generatePCRPublicKey, generateKernel, generatePCRSig]

/-- The generator loop of Build: run each step in order; a step error is
wrapped as the generating-sections error and aborts the remaining steps. -/
def runGenerators (env : Env) : List Gen → Builder → World → StepResult × Builder × World
  | [], b, w => (.ok, b, w)
  | g :: gs, b, w =>
    match g env b w with
    | (.ok, b1, w1) => runGenerators env gs b1 w1
    | (.fail e, b1, w1) => (.fail (.wrap "error generating sections" e), b1, w1)
    | (.panicked, b1, w1) => (.panicked, b1, w1)

/-- The PCR-signer resolution branch of Build: keep a pre-built signer,
otherwise derive one from PCRKey, and fail with the configuration error
when neither is available. -/
def resolvePCRSigner (env : Env) (b : Builder) : Except BuildError Builder :=
  match b.PCRSigner with
  | some _ => .ok b
  | none =>
    if b.PCRKey = "" then .error .noPCRSigner
    else
      match env.newPCRSigner b.PCRKey with
      | .error e => .error e
      | .ok signer => .ok { b with PCRSigner := some signer }

/-- The Secure-Boot-signer resolution branch of Build: keep a pre-built
signer, otherwise derive one from the certificate and key pair, and fail
with the configuration error when either half is missing. -/
def resolveSBSigner (env : Env) (b : Builder) : Except BuildError Builder :=
  match b.SecureBootSigner with
  | some _ => .ok b
  | none =>
    if b.SBCert = "" ∨ b.SBKey = "" then .error .noSBSigner
    else
      match env.newSecureBootSigner b.SBCert b.SBKey with
      | .error e => .error e
      | .ok sbSigner => .ok { b with SecureBootSigner := some sbSigner }

/-- strings.ToLower, modelled character-wise so that it evaluates in the
kernel. -/
def strToLower (s : String) : String := ⟨s.data.map Char.toLower⟩

/-- The switch on strings.ToLower of LogLevel that picks the process-wide
slog level; every unrecognized value falls to Info. -/
def levelFor (s : String) : SlogLevel :=
  match strToLower s with
  | "debug" => .debug
  | "warn" => .warn
  | "error" => .error
  | _ => .info

/-- The pre-assembly sd-boot signing block of Build: when an sd-boot path
is supplied, construct the PE signer from the Secure-Boot capability and
sign sd-boot to its output path; otherwise do nothing (in particular,
peSigner stays nil). -/
def signSdBoot (env : Env) (b : Builder) (w : World) : StepResult × Builder × World :=
  if b.SdBootPath ≠ "" then
    match b.SecureBootSigner with
    | none => (.panicked, b, w)
    | some cs =>
      match env.newSigner cs with
      | .error e => (.fail (.wrap "error initializing signer" e), b, w)
      | .ok s =>
        match env.signErr s b.SdBootPath b.OutSdBootPath with
        | some e => (.fail (.wrap "error signing sd-boot" e), { b with peSigner := some s }, w)
        | none => (.ok, { b with peSigner := some s }, w)
  else (.ok, b, w)

/-- The tail of Build after the generator loop: assemble the UKI, then sign
the unsigned composite with builder.peSigner - a dereference of a pointer
that was only set in the sd-boot branch, so it panics when that branch did
not run. -/
def assembleAndSign (env : Env) (b : Builder) (w : World) : StepResult × Builder × World :=
  match env.assembleCall b.SdStubPath b.sections with
  | .error e => (.fail (.wrap "error assembling UKI" e), b, w)
  | .ok ukiPath =>
    let b3 := { b with unsignedUKIPath := ukiPath }
    match b3.peSigner with
    | none => (.panicked, b3, w)
    | some s =>
      match env.signErr s b3.unsignedUKIPath b3.OutUKIPath with
      | some e => (.fail e, b3, w)
      | none => (.ok, b3, w)

/-- The body of Build guarded by the deferred scratch removal: optional
sd-boot pre-assembly signing, the generator loop, assembly and the final
UKI signing. -/
def buildInner (env : Env) (b : Builder) (w : World) : StepResult × Builder × World :=
  match signSdBoot env b w with
  | (.ok, b1, w1) =>
    match runGenerators env generatorsList b1 w1 with
    | (.ok, b2, w2) => assembleAndSign env b2 w2
    | r => r
  | r => r

/-- The logger initialization at the top of Build: a nil Logger is replaced
by the process default logger. -/
def installLogger (env : Env) (b0 : Builder) : Builder :=
  match b0.Logger with
  | none => { b0 with Logger := some env.slogDefault }
  | some _ => b0

/-- The complete observable outcome of one Build call: the returned result,
the final builder state, the trace, whether the scratch directory was
created, the RemoveAll invocations, and the slog level installed. -/
structure BuildOutcome where
  result : StepResult
  builder : Builder
  world : World
  scratchCreated : Bool
  removeCalls : List String
  logLevelSet : SlogLevel
deriving DecidableEq, Repr

/-- Build: install the logger and log level, resolve both signing
capabilities, create the scratch directory, run the guarded body, and
unconditionally remove the scratch directory afterwards.  The removal
error is only logged; the result returned is the one computed by the body
(the function has no named return value, so the deferred assignment cannot
change it). -/
def Build (env : Env) (b0 : Builder) : BuildOutcome :=
  let b1 := installLogger env b0
  let lvl := levelFor b1.LogLevel
  match resolvePCRSigner env b1 with
  | .error e => ⟨.fail e, b1, emptyWorld, false, [], lvl⟩
  | .ok b2 =>
    match resolveSBSigner env b2 with
    | .error e => ⟨.fail e, b2, emptyWorld, false, [], lvl⟩
    | .ok b3 =>
      match env.mkdirTemp with
      | .error e => ⟨.fail e, b3, emptyWorld, false, [], lvl⟩
      | .ok dir =>
        let b4 := { b3 with scratchDir := dir }
        match buildInner env b4 emptyWorld with
        | (res, b5, w) =>
          let w1 := match env.removeAllErr dir with
            | some _ => { w with logs := w.logs ++ ["failed to remove scratch dir"] }
            | none => w
          ⟨res, b5, w1, true, [dir], lvl⟩

/-- An environment in which every external collaborator succeeds. -/
def okEnv : Env where
  slogDefault := ⟨0⟩
  newPCRSigner := fun _ => .ok ⟨1⟩
  newSecureBootSigner := fun _ _ => .ok ⟨2⟩
  mkdirTemp := .ok "/tmp/ukify1"
  newSigner := fun cs => .ok ⟨cs⟩
  signErr := fun _ _ _ => none
  osReleaseFor := fun _ => .ok (strBytes "NAME=test")
  writeFileErr := fun _ => none
  readFile := fun _ => (strBytes "splashdata", none)
  discoverKernelVersion := fun _ => ("6.6.0", none)
  getSBAT := fun _ => .ok (strBytes "sbat,1")
  marshalPKIXPublicKey := fun n => .ok [UInt8.ofNat n]
  pemEncodeRSAPublic := fun bs => bs
  generateSignedPCR := fun _ _ _ => .ok ⟨7⟩
  jsonMarshal := fun _ => .ok (strBytes "{}")
  assembleCall := fun _ _ => .ok "/tmp/ukify1/uki.unsigned"
  removeAllErr := fun _ => none

/-- A fully populated fresh builder, with an sd-boot path supplied. -/
def freshBuilder : Builder where
  Arch := "amd64"
  Version := "v1"
  SdStubPath := "/stub"
  SdBootPath := "/sdboot"
  KernelPath := "/kernel"
  InitrdPath := "/initrd"
  Cmdline := "console=ttyS0 reboot=k"
  OsRelease := ""
  SecureBootSigner := some ⟨2⟩
  SBKey := ""
  SBCert := ""
  PCRSigner := some ⟨1⟩
  PCRKey := ""
  Splash := ""
  OutSdBootPath := "/out/sdboot"
  OutUKIPath := "/out/uki"
  Logger := none
  LogLevel := ""
  sections := []
  scratchDir := ""
  peSigner := none
  unsignedUKIPath := ""

/-! ### Helper lemmas about single steps -/

lemma writeFile_ok_measureCalls {env : Env} {w : World} {path : String} {c : Bytes}
    {w1 : World} (h : writeFile env w path c = .ok w1) :
    w1.measureCalls = w.measureCalls := by
  unfold writeFile at h
  split at h
  · exact absurd h (by simp)
  · cases h
    rfl

lemma generateOSRel_ok {env : Env} {b b1 : Builder} {w w1 : World}
    (h : generateOSRel env b w = (.ok, b1, w1)) :
    ∃ p, b1 = { b with sections := b.sections ++ [⟨.OSRel, p, true, true⟩] } := by
  unfold generateOSRel at h
  split at h
  · exact ⟨b.OsRelease, by cases h; rfl⟩
  · split at h
    · simp at h
    · split at h
      · simp at h
      · exact ⟨joinPath b.scratchDir "os-release", by cases h; rfl⟩

lemma generateCmdline_ok {env : Env} {b b1 : Builder} {w w1 : World}
    (h : generateCmdline env b w = (.ok, b1, w1)) :
    ∃ p, b1 = { b with sections := b.sections ++ [⟨.CMDLine, p, true, true⟩] } := by
  unfold generateCmdline at h
  split at h
  · simp at h
  · exact ⟨joinPath b.scratchDir "cmdline", by cases h; rfl⟩

lemma generateInitrd_ok {env : Env} {b b1 : Builder} {w w1 : World}
    (h : generateInitrd env b w = (.ok, b1, w1)) :
    ∃ p, b1 = { b with sections := b.sections ++ [⟨.Initrd, p, true, true⟩] } := by
  unfold generateInitrd at h
  exact ⟨b.InitrdPath, by cases h; rfl⟩

lemma generateSplash_ok {env : Env} {b b1 : Builder} {w w1 : World}
    (h : generateSplash env b w = (.ok, b1, w1)) :
    ∃ p, b1 = { b with sections := b.sections ++ [⟨.Splash, p, true, true⟩] } := by
  simp only [generateSplash] at h
  repeat' split at h
  all_goals first
    | exact ⟨joinPath b.scratchDir "splash.bmp", by cases h; rfl⟩
    | simp at h

lemma generateUname_ok {env : Env} {b b1 : Builder} {w w1 : World}
    (h : generateUname env b w = (.ok, b1, w1)) :
    b1 = b ∨ ∃ p, b1 = { b with sections := b.sections ++ [⟨.Uname, p, true, true⟩] } := by
  simp only [generateUname] at h
  repeat' split at h
  all_goals first
    | exact .inl (by cases h; rfl)
    | exact .inr ⟨joinPath b.scratchDir "uname", by cases h; rfl⟩
    | simp at h

lemma generateSBAT_ok {env : Env} {b b1 : Builder} {w w1 : World}
    (h : generateSBAT env b w = (.ok, b1, w1)) :
    ∃ p, b1 = { b with sections := b.sections ++ [⟨.SBAT, p, true, false⟩] } := by
  unfold generateSBAT at h
  split at h
  · simp at h
  · split at h
    · simp at h
    · exact ⟨joinPath b.scratchDir "sbat", by cases h; rfl⟩

lemma generatePCRPublicKey_ok {env : Env} {b b1 : Builder} {w w1 : World}
    (h : generatePCRPublicKey env b w = (.ok, b1, w1)) :
    ∃ p, b1 = { b with sections := b.sections ++ [⟨.PCRPKey, p, true, true⟩] } := by
  unfold generatePCRPublicKey at h
  split at h
  · simp at h
  · split at h
    · simp at h
    · split at h
      · simp at h
      · exact ⟨joinPath b.scratchDir "pcr-public.pem", by cases h; rfl⟩

lemma generateKernel_ok {env : Env} {b b1 : Builder} {w w1 : World}
    (h : generateKernel env b w = (.ok, b1, w1)) :
    b1 = { b with sections := b.sections ++ [⟨.Linux, b.KernelPath, true, true⟩] } := by
  unfold generateKernel at h
  cases h
  rfl

lemma generatePCRSig_ok {env : Env} {b b1 : Builder} {w w1 : World}
    (h : generatePCRSig env b w = (.ok, b1, w1)) :
    ∃ p, b1 = { b with sections := b.sections ++ [⟨.PCRSig, p, false, true⟩] } := by
  simp only [generatePCRSig] at h
  repeat' split at h
  all_goals first
    | exact ⟨joinPath b.scratchDir "pcrpsig", by cases h; rfl⟩
    | simp at h

lemma runGenerators_cons_ok {env : Env} {g : Gen} {gs : List Gen}
    {b bf : Builder} {w wf : World}
    (h : runGenerators env (g :: gs) b w = (.ok, bf, wf)) :
    ∃ b1 w1, g env b w = (.ok, b1, w1) ∧ runGenerators env gs b1 w1 = (.ok, bf, wf) := by
  unfold runGenerators at h
  rcases hg : g env b w with ⟨r, b1, w1⟩
  rw [hg] at h
  cases r with
  | ok => exact ⟨b1, w1, rfl, h⟩
  | fail e => simp at h
  | panicked => simp at h

lemma runGenerators_nil_ok {env : Env} {b bf : Builder} {w wf : World}
    (h : runGenerators env [] b w = (.ok, bf, wf)) : bf = b ∧ wf = w := by
  unfold runGenerators at h
  cases h
  exact ⟨rfl, rfl⟩

lemma installLogger_sections (env : Env) (b0 : Builder) :
    (installLogger env b0).sections = b0.sections := by
  unfold installLogger
  split <;> rfl

lemma installLogger_KernelPath (env : Env) (b0 : Builder) :
    (installLogger env b0).KernelPath = b0.KernelPath := by
  unfold installLogger
  split <;> rfl

lemma installLogger_LogLevel (env : Env) (b0 : Builder) :
    (installLogger env b0).LogLevel = b0.LogLevel := by
  unfold installLogger
  split <;> rfl

lemma installLogger_PCRSigner (env : Env) (b0 : Builder) :
    (installLogger env b0).PCRSigner = b0.PCRSigner := by
  unfold installLogger
  split <;> rfl

lemma installLogger_PCRKey (env : Env) (b0 : Builder) :
    (installLogger env b0).PCRKey = b0.PCRKey := by
  unfold installLogger
  split <;> rfl

lemma installLogger_SecureBootSigner (env : Env) (b0 : Builder) :
    (installLogger env b0).SecureBootSigner = b0.SecureBootSigner := by
  unfold installLogger
  split <;> rfl

lemma installLogger_SBCert (env : Env) (b0 : Builder) :
    (installLogger env b0).SBCert = b0.SBCert := by
  unfold installLogger
  split <;> rfl

lemma installLogger_SBKey (env : Env) (b0 : Builder) :
    (installLogger env b0).SBKey = b0.SBKey := by
  unfold installLogger
  split <;> rfl

lemma resolvePCRSigner_ok {env : Env} {b b2 : Builder}
    (h : resolvePCRSigner env b = .ok b2) :
    b2 = b ∨ ∃ k, b2 = { b with PCRSigner := some k } := by
  unfold resolvePCRSigner at h
  split at h
  · cases h
    exact .inl rfl
  · split at h
    · simp at h
    · split at h
      · simp at h
      · cases h
        exact .inr ⟨_, rfl⟩

lemma resolveSBSigner_ok {env : Env} {b b2 : Builder}
    (h : resolveSBSigner env b = .ok b2) :
    b2 = b ∨ ∃ cs, b2 = { b with SecureBootSigner := some cs } := by
  unfold resolveSBSigner at h
  split at h
  · cases h
    exact .inl rfl
  · split at h
    · simp at h
    · split at h
      · simp at h
      · cases h
        exact .inr ⟨_, rfl⟩

lemma signSdBoot_ok {env : Env} {b b1 : Builder} {w w1 : World}
    (h : signSdBoot env b w = (.ok, b1, w1)) :
    (b1 = b ∨ ∃ s, b1 = { b with peSigner := some s }) ∧ w1 = w := by
  unfold signSdBoot at h
  split at h
  · split at h
    · simp at h
    · split at h
      · simp at h
      · split at h
        · simp at h
        · cases h
          exact ⟨.inr ⟨_, rfl⟩, rfl⟩
  · cases h
    exact ⟨.inl rfl, rfl⟩

lemma assembleAndSign_ok {env : Env} {b bf : Builder} {w wf : World}
    (h : assembleAndSign env b w = (.ok, bf, wf)) :
    ∃ p, bf = { b with unsignedUKIPath := p } ∧ wf = w := by
  simp only [assembleAndSign] at h
  repeat' split at h
  all_goals first
    | exact ⟨_, by cases h; rfl, by cases h; rfl⟩
    | simp at h

lemma buildInner_ok {env : Env} {b bf : Builder} {w wf : World}
    (h : buildInner env b w = (.ok, bf, wf)) :
    ∃ b1 b2 w2, (b1 = b ∨ ∃ s, b1 = { b with peSigner := some s })
      ∧ runGenerators env generatorsList b1 w = (.ok, b2, w2)
      ∧ ∃ p, bf = { b2 with unsignedUKIPath := p } ∧ wf = w2 := by
  unfold buildInner at h
  rcases h1 : signSdBoot env b w with ⟨r1, b1, w1⟩
  rw [h1] at h
  cases r1 with
  | ok =>
    obtain ⟨hb1, hw1⟩ := signSdBoot_ok h1
    rw [hw1] at h
    dsimp only at h
    rcases h2 : runGenerators env generatorsList b1 w with ⟨r2, b2, w2⟩
    rw [h2] at h
    cases r2 with
    | ok =>
      obtain ⟨p, hbf, hwf⟩ := assembleAndSign_ok h
      exact ⟨b1, b2, w2, hb1, h2, p, hbf, hwf⟩
    | fail e => simp at h
    | panicked => simp at h
  | fail e => simp at h
  | panicked => simp at h

/-- Build, written as a plain nested match (definitional equation used to
invert Build in proofs). -/
lemma Build_eq (env : Env) (b0 : Builder) :
    Build env b0 =
      match resolvePCRSigner env (installLogger env b0) with
      | .error e =>
        ⟨.fail e, installLogger env b0, emptyWorld, false, [],
          levelFor (installLogger env b0).LogLevel⟩
      | .ok b2 =>
        match resolveSBSigner env b2 with
        | .error e =>
          ⟨.fail e, b2, emptyWorld, false, [], levelFor (installLogger env b0).LogLevel⟩
        | .ok b3 =>
          match env.mkdirTemp with
          | .error e =>
            ⟨.fail e, b3, emptyWorld, false, [], levelFor (installLogger env b0).LogLevel⟩
          | .ok dir =>
            match buildInner env { b3 with scratchDir := dir } emptyWorld with
            | (res, b5, w) =>
              ⟨res, b5,
                match env.removeAllErr dir with
                | some _ => { w with logs := w.logs ++ ["failed to remove scratch dir"] }
                | none => w,
                true, [dir], levelFor (installLogger env b0).LogLevel⟩ := rfl

lemma Build_ok {env : Env} {b0 : Builder} (h : (Build env b0).result = .ok) :
    ∃ dir b4 b5 w5,
      env.mkdirTemp = .ok dir
      ∧ b4.sections = b0.sections ∧ b4.KernelPath = b0.KernelPath
      ∧ buildInner env b4 emptyWorld = (.ok, b5, w5)
      ∧ (Build env b0).builder = b5 := by
  rw [Build_eq] at h ⊢
  rcases h1 : resolvePCRSigner env (installLogger env b0) with e | b2 <;> rw [h1] at h
  · simp at h
  dsimp only at h
  rcases h2 : resolveSBSigner env b2 with e | b3 <;> rw [h2] at h
  · simp at h
  dsimp only at h
  rcases h3 : env.mkdirTemp with e | dir <;> rw [h3] at h
  · simp at h
  dsimp only at h
  rcases h4 : buildInner env { b3 with scratchDir := dir } emptyWorld with ⟨res, b5, w5⟩
  rw [h4] at h
  dsimp only at h ⊢
  subst h
  have hs2 : b2.sections = b0.sections := by
    rcases resolvePCRSigner_ok h1 with rfl | ⟨k, rfl⟩ <;>
      simp [installLogger_sections]
  have hk2 : b2.KernelPath = b0.KernelPath := by
    rcases resolvePCRSigner_ok h1 with rfl | ⟨k, rfl⟩ <;>
      simp [installLogger_KernelPath]
  have hs3 : b3.sections = b0.sections := by
    rcases resolveSBSigner_ok h2 with rfl | ⟨cs, rfl⟩ <;> simp [hs2]
  have hk3 : b3.KernelPath = b0.KernelPath := by
    rcases resolveSBSigner_ok h2 with rfl | ⟨cs, rfl⟩ <;> simp [hk2]
  refine ⟨dir, { b3 with scratchDir := dir }, b5, w5, rfl, hs3, hk3, h4, ?_⟩
  rw [h2]
  dsimp only
  rw [h4]

/-- A successful pass of the full generator list appends, after some
sections none of which are the Kernel or PCRSig section, exactly the
Kernel section (at the supplied kernel path, measured and appended) and
then the PCRSig section (unmeasured, appended), in that order, at the very
end of the list. -/
lemma runGenerators_full_ok {env : Env} {b bf : Builder} {w wf : World}
    (h : runGenerators env generatorsList b w = (.ok, bf, wf)) :
    ∃ pre pp,
      bf.sections = b.sections ++ pre ++
        [⟨.Linux, b.KernelPath, true, true⟩, ⟨.PCRSig, pp, false, true⟩]
      ∧ ∀ s ∈ pre, s.Name ≠ SectionName.Linux ∧ s.Name ≠ SectionName.PCRSig := by
  unfold generatorsList at h
  obtain ⟨a1, u1, hg1, h⟩ := runGenerators_cons_ok h
  obtain ⟨a2, u2, hg2, h⟩ := runGenerators_cons_ok h
  obtain ⟨a3, u3, hg3, h⟩ := runGenerators_cons_ok h
  obtain ⟨a4, u4, hg4, h⟩ := runGenerators_cons_ok h
  obtain ⟨a5, u5, hg5, h⟩ := runGenerators_cons_ok h
  obtain ⟨a6, u6, hg6, h⟩ := runGenerators_cons_ok h
  obtain ⟨a7, u7, hg7, h⟩ := runGenerators_cons_ok h
  obtain ⟨a8, u8, hg8, h⟩ := runGenerators_cons_ok h
  obtain ⟨a9, u9, hg9, h⟩ := runGenerators_cons_ok h
  obtain ⟨hbf, hwf⟩ := runGenerators_nil_ok h
  obtain ⟨p1, e1⟩ := generateOSRel_ok hg1
  obtain ⟨p2, e2⟩ := generateCmdline_ok hg2
  obtain ⟨p3, e3⟩ := generateInitrd_ok hg3
  obtain ⟨p4, e4⟩ := generateSplash_ok hg4
  have e5 := generateUname_ok hg5
  obtain ⟨p6, e6⟩ := generateSBAT_ok hg6
  obtain ⟨p7, e7⟩ := generatePCRPublicKey_ok hg7
  have e8 := generateKernel_ok hg8
  obtain ⟨p9, e9⟩ := generatePCRSig_ok hg9
  subst hbf e9 e8 e7 e6 e4 e3 e2 e1
  rcases e5 with e5 | ⟨p5, e5⟩ <;> subst e5
  · refine ⟨[⟨.OSRel, p1, true, true⟩, ⟨.CMDLine, p2, true, true⟩,
      ⟨.Initrd, p3, true, true⟩, ⟨.Splash, p4, true, true⟩,
      ⟨.SBAT, p6, true, false⟩, ⟨.PCRPKey, p7, true, true⟩], p9, ?_, ?_⟩
    · simp
    · intro s hs
      simp only [List.mem_cons, List.not_mem_nil, or_false] at hs
      rcases hs with rfl | rfl | rfl | rfl | rfl | rfl <;> simp
  · refine ⟨[⟨.OSRel, p1, true, true⟩, ⟨.CMDLine, p2, true, true⟩,
      ⟨.Initrd, p3, true, true⟩, ⟨.Splash, p4, true, true⟩,
      ⟨.Uname, p5, true, true⟩,
      ⟨.SBAT, p6, true, false⟩, ⟨.PCRPKey, p7, true, true⟩], p9, ?_, ?_⟩
    · simp
    · intro s hs
      simp only [List.mem_cons, List.not_mem_nil, or_false] at hs
      rcases hs with rfl | rfl | rfl | rfl | rfl | rfl | rfl <;> simp

/-- C3: for every successful build started with an empty section list, the
Kernel section of the final section list is immediately followed by the
measurement-signature (PCRSig) section, these are the last two entries, no
section flagged Measure appears after the Kernel section, and no other
position holds a Kernel section. -/
theorem c3_kernel_then_pcrsig (env : Env) (b0 : Builder)
    (hempty : b0.sections = []) (hok : (Build env b0).result = .ok) :
    ∃ i,
      i + 2 = (Build env b0).builder.sections.length
      ∧ (∃ kp, (Build env b0).builder.sections[i]? = some ⟨.Linux, kp, true, true⟩)
      ∧ (∃ pp, (Build env b0).builder.sections[i+1]? = some ⟨.PCRSig, pp, false, true⟩)
      ∧ (∀ j s, (Build env b0).builder.sections[j]? = some s → s.Measure = true → j ≤ i)
      ∧ (∀ j s, (Build env b0).builder.sections[j]? = some s →
          s.Name = SectionName.Linux → j = i) := by
  obtain ⟨dir, b4, b5, w5, hmk, hs4, hk4, hinner, hbuilder⟩ := Build_ok hok
  obtain ⟨b1, b2, w2, hb1, hrun, p, hb5, hw5⟩ := buildInner_ok hinner
  have hb1s : b1.sections = b4.sections ∧ b1.KernelPath = b4.KernelPath := by
    rcases hb1 with rfl | ⟨s, rfl⟩ <;> exact ⟨rfl, rfl⟩
  obtain ⟨pre, pp, hsec, hpre⟩ := runGenerators_full_ok hrun
  have hl : (Build env b0).builder.sections = pre ++
      [⟨.Linux, b0.KernelPath, true, true⟩, ⟨.PCRSig, pp, false, true⟩] := by
    rw [hbuilder, hb5]
    show b2.sections = _
    rw [hsec, hb1s.1, hb1s.2, hs4, hk4, hempty]
    simp
  refine ⟨pre.length, ?_, ?_, ?_, ?_, ?_⟩
  · rw [hl]
    simp
  · refine ⟨b0.KernelPath, ?_⟩
    rw [hl, List.getElem?_append_right (le_refl pre.length)]
    simp
  · refine ⟨pp, ?_⟩
    rw [hl, List.getElem?_append_right (Nat.le_add_right pre.length 1)]
    simp
  · intro j s hj hMeas
    by_contra hgt
    push_neg at hgt
    rw [hl] at hj
    have hjlt : j < pre.length + 2 := by
      obtain ⟨hlt, _⟩ := List.getElem?_eq_some_iff.mp hj
      simpa using hlt
    have hj1 : j = pre.length + 1 := by omega
    subst hj1
    rw [List.getElem?_append_right (Nat.le_add_right pre.length 1)] at hj
    simp only [Nat.add_sub_cancel_left] at hj
    simp at hj
    rw [← hj] at hMeas
    simp at hMeas
  · intro j s hj hname
    rw [hl] at hj
    have hjlt : j < pre.length + 2 := by
      obtain ⟨hlt, _⟩ := List.getElem?_eq_some_iff.mp hj
      simpa using hlt
    rcases Nat.lt_or_ge j pre.length with hlt | hge
    · rw [List.getElem?_append_left hlt] at hj
      obtain ⟨h9, hEq⟩ := List.getElem?_eq_some_iff.mp hj
      have hmem : s ∈ pre := hEq ▸ List.getElem_mem h9
      exact absurd hname ((hpre s hmem).1)
    · rcases Nat.eq_or_lt_of_le hge with heq | hlt2
      · exact heq.symm
      · have hj1 : j = pre.length + 1 := by omega
        subst hj1
        rw [List.getElem?_append_right (Nat.le_add_right pre.length 1)] at hj
        simp only [Nat.add_sub_cancel_left] at hj
        simp at hj
        rw [← hj] at hname
        simp at hname

/-- Witness for C3: the hypotheses hold at the concrete all-success
environment and fresh builder, and the conclusion follows by the theorem. -/
theorem c3_kernel_then_pcrsig_witness :
    freshBuilder.sections = [] ∧ (Build okEnv freshBuilder).result = .ok ∧
    ∃ i,
      i + 2 = (Build okEnv freshBuilder).builder.sections.length
      ∧ (∃ kp, (Build okEnv freshBuilder).builder.sections[i]? = some ⟨.Linux, kp, true, true⟩)
      ∧ (∃ pp, (Build okEnv freshBuilder).builder.sections[i+1]? =
          some ⟨.PCRSig, pp, false, true⟩)
      ∧ (∀ j s, (Build okEnv freshBuilder).builder.sections[j]? = some s →
          s.Measure = true → j ≤ i)
      ∧ (∀ j s, (Build okEnv freshBuilder).builder.sections[j]? = some s →
          s.Name = SectionName.Linux → j = i) :=
  ⟨rfl, rfl, c3_kernel_then_pcrsig okEnv freshBuilder rfl rfl⟩

lemma resolvePCRSigner_none_empty {env : Env} {b : Builder}
    (h1 : b.PCRSigner = none) (h2 : b.PCRKey = "") :
    resolvePCRSigner env b = .error .noPCRSigner := by
  simp [resolvePCRSigner, h1, h2]

lemma resolvePCRSigner_derive_error {env : Env} {b : Builder} {e : BuildError}
    (h1 : b.PCRSigner = none) (h2 : b.PCRKey ≠ "")
    (h3 : env.newPCRSigner b.PCRKey = .error e) :
    resolvePCRSigner env b = .error e := by
  simp [resolvePCRSigner, h1, h2, h3]

lemma resolvePCRSigner_resolves {env : Env} {b : Builder}
    (h : b.PCRSigner ≠ none ∨ (b.PCRKey ≠ "" ∧ ∃ k, env.newPCRSigner b.PCRKey = .ok k)) :
    ∃ b2, resolvePCRSigner env b = .ok b2
      ∧ b2.SecureBootSigner = b.SecureBootSigner
      ∧ b2.SBCert = b.SBCert ∧ b2.SBKey = b.SBKey := by
  rcases h with h | ⟨hk, k, hd⟩
  · rcases hs : b.PCRSigner with _ | k
    · exact absurd hs h
    · exact ⟨b, by simp [resolvePCRSigner, hs], rfl, rfl, rfl⟩
  · rcases hs : b.PCRSigner with _ | k0
    · exact ⟨{ b with PCRSigner := some k }, by simp [resolvePCRSigner, hs, hk, hd], rfl, rfl, rfl⟩
    · exact ⟨b, by simp [resolvePCRSigner, hs], rfl, rfl, rfl⟩

lemma resolveSBSigner_none_missing {env : Env} {b : Builder}
    (h1 : b.SecureBootSigner = none) (h2 : b.SBCert = "" ∨ b.SBKey = "") :
    resolveSBSigner env b = .error .noSBSigner := by
  simp only [resolveSBSigner, h1]
  rw [if_pos h2]

lemma Build_fail_of_resolvePCR {env : Env} {b0 : Builder} {e : BuildError}
    (h : resolvePCRSigner env (installLogger env b0) = .error e) :
    (Build env b0).result = .fail e ∧ (Build env b0).scratchCreated = false := by
  rw [Build_eq, h]
  exact ⟨rfl, rfl⟩

lemma Build_fail_of_resolveSB {env : Env} {b0 b2 : Builder} {e : BuildError}
    (h1 : resolvePCRSigner env (installLogger env b0) = .ok b2)
    (h2 : resolveSBSigner env b2 = .error e) :
    (Build env b0).result = .fail e ∧ (Build env b0).scratchCreated = false := by
  rw [Build_eq, h1]
  dsimp only
  rw [h2]
  exact ⟨rfl, rfl⟩

/-- C1: the claim states that with no boot-loader (sd-boot) path supplied,
the post-assembly step freshly constructs a PE Signer from the Secure-Boot
capability and signs the composite.  The code instead reuses the private
peSigner pointer, which is only set inside the sd-boot branch: with an
otherwise fully valid configuration and an environment in which every
collaborator succeeds, dropping the sd-boot path makes Build dereference
the nil peSigner at the final signing step (modelled as a panic), while the
identical build with an sd-boot path succeeds.  The final builder state
confirms that no PE signer was ever constructed on that run. -/
theorem c1_no_sdboot_post_assembly_signer :
    (Build okEnv { freshBuilder with SdBootPath := "" }).result = .panicked
    ∧ (Build okEnv { freshBuilder with SdBootPath := "" }).builder.peSigner = none
    ∧ (Build okEnv freshBuilder).result = .ok :=
  ⟨rfl, rfl, rfl⟩

/-- C2 counterexample: a configuration missing both Secure-Boot-signing
inputs (no pre-built signer, empty certificate and key) whose PCR key path
is present but fails to derive: Build returns the derivation error, which
is not one of the two configuration errors, contradicting the claim that
every such configuration yields a configuration error.  (No scratch
directory is created, as the claim also states.) -/
theorem c2_counterexample :
    (let b := { freshBuilder with
                PCRSigner := none
                PCRKey := "pcr-key.pem"
                SecureBootSigner := none
                SBCert := ""
                SBKey := "" }
     let env := { okEnv with newPCRSigner := fun _ => .error (.ext 7) }
     b.SecureBootSigner = none ∧ b.SBCert = "" ∧ b.SBKey = ""
     ∧ (Build env b).result = .fail (.ext 7)
     ∧ BuildError.isConfigError (.ext 7) = false
     ∧ (Build env b).scratchCreated = false) :=
  ⟨rfl, rfl, rfl, rfl, rfl, rfl⟩

/-- C2 (amended): missing both PCR-signing inputs fails immediately with
the PCR configuration error and creates no scratch directory; missing both
Secure-Boot-signing inputs fails with the Secure-Boot configuration error
and creates no scratch directory provided the PCR capability resolves (a
pre-built PCR signer is present, or the key path is non-empty and derives
successfully); and in every configuration covered by the original claim
Build fails and no scratch directory is ever created. -/
theorem c2_missing_signer_inputs (env : Env) (b0 : Builder) :
    (b0.PCRSigner = none → b0.PCRKey = "" →
      (Build env b0).result = .fail .noPCRSigner ∧ (Build env b0).scratchCreated = false)
    ∧ (b0.SecureBootSigner = none → (b0.SBCert = "" ∨ b0.SBKey = "") →
        (b0.PCRSigner ≠ none ∨ (b0.PCRKey ≠ "" ∧ ∃ k, env.newPCRSigner b0.PCRKey = .ok k)) →
        (Build env b0).result = .fail .noSBSigner ∧ (Build env b0).scratchCreated = false)
    ∧ (((b0.PCRSigner = none ∧ b0.PCRKey = "") ∨
        (b0.SecureBootSigner = none ∧ (b0.SBCert = "" ∨ b0.SBKey = ""))) →
        (∃ e, (Build env b0).result = .fail e) ∧ (Build env b0).scratchCreated = false) := by
  have hPCRtr : (installLogger env b0).PCRSigner = b0.PCRSigner := installLogger_PCRSigner env b0
  have hKeytr : (installLogger env b0).PCRKey = b0.PCRKey := installLogger_PCRKey env b0
  have first : b0.PCRSigner = none → b0.PCRKey = "" →
      (Build env b0).result = .fail .noPCRSigner ∧ (Build env b0).scratchCreated = false := by
    intro h1 h2
    exact Build_fail_of_resolvePCR
      (resolvePCRSigner_none_empty (hPCRtr.trans h1) (hKeytr.trans h2))
  have second : b0.SecureBootSigner = none → (b0.SBCert = "" ∨ b0.SBKey = "") →
      (b0.PCRSigner ≠ none ∨ (b0.PCRKey ≠ "" ∧ ∃ k, env.newPCRSigner b0.PCRKey = .ok k)) →
      (Build env b0).result = .fail .noSBSigner ∧ (Build env b0).scratchCreated = false := by
    intro hsb hcert hres
    have hres2 : (installLogger env b0).PCRSigner ≠ none ∨
        ((installLogger env b0).PCRKey ≠ "" ∧
          ∃ k, env.newPCRSigner (installLogger env b0).PCRKey = .ok k) := by
      rw [hPCRtr, hKeytr]
      exact hres
    obtain ⟨b2, hok, hSB2, hCert2, hKey2⟩ := resolvePCRSigner_resolves hres2
    have hSBmiss : resolveSBSigner env b2 = .error .noSBSigner := by
      refine resolveSBSigner_none_missing ?_ ?_
      · rw [hSB2, installLogger_SecureBootSigner]
        exact hsb
      · rw [hCert2, hKey2, installLogger_SBCert, installLogger_SBKey]
        exact hcert
    exact Build_fail_of_resolveSB hok hSBmiss
  refine ⟨first, second, ?_⟩
  rintro (⟨h1, h2⟩ | ⟨hsb, hcert⟩)
  · obtain ⟨hr, hs⟩ := first h1 h2
    exact ⟨⟨.noPCRSigner, hr⟩, hs⟩
  · rcases hps : b0.PCRSigner with _ | k0
    · by_cases hk : b0.PCRKey = ""
      · obtain ⟨hr, hs⟩ := first hps hk
        exact ⟨⟨.noPCRSigner, hr⟩, hs⟩
      · rcases hd : env.newPCRSigner b0.PCRKey with e | k
        · obtain ⟨hr, hs⟩ := Build_fail_of_resolvePCR
            (resolvePCRSigner_derive_error (hPCRtr.trans hps)
              (by rw [hKeytr]; exact hk) (by rw [hKeytr]; exact hd))
          exact ⟨⟨e, hr⟩, hs⟩
        · obtain ⟨hr, hs⟩ := second hsb hcert (.inr ⟨hk, k, hd⟩)
          exact ⟨⟨.noSBSigner, hr⟩, hs⟩
    · obtain ⟨hr, hs⟩ := second hsb hcert (.inl (by rw [hps]; simp))
      exact ⟨⟨.noSBSigner, hr⟩, hs⟩

/-- Witness for C2 (amended), discharging the first implication at a
concrete configuration missing both PCR-signing inputs. -/
theorem c2_missing_signer_inputs_witness :
    ({ freshBuilder with PCRSigner := none, PCRKey := "" } : Builder).PCRSigner = none
    ∧ ({ freshBuilder with PCRSigner := none, PCRKey := "" } : Builder).PCRKey = ""
    ∧ (Build okEnv { freshBuilder with PCRSigner := none, PCRKey := "" }).result =
        .fail .noPCRSigner
    ∧ (Build okEnv { freshBuilder with PCRSigner := none, PCRKey := "" }).scratchCreated =
        false :=
  ⟨rfl, rfl,
    ((c2_missing_signer_inputs okEnv
      { freshBuilder with PCRSigner := none, PCRKey := "" }).1 rfl rfl).1,
    ((c2_missing_signer_inputs okEnv
      { freshBuilder with PCRSigner := none, PCRKey := "" }).1 rfl rfl).2⟩

/-- An environment in which the kernel-version probe fails (empty version
with an error), everything else succeeding. -/
def unameFailEnv : Env :=
  { okEnv with discoverKernelVersion := fun _ => ("", some (.ext 5)) }

/-- An environment in which reading the supplied splash path fails with no
data, everything else succeeding. -/
def splashFailEnv : Env :=
  { okEnv with readFile := fun _ => ([], some (.ext 3)) }

/-- C6: when a supplied splash path cannot be read, the read error is
discarded, the splash section is still written - with the empty content
the failed read produced - and the splash step succeeds. -/
theorem c6_splash_unreadable (env : Env) (b : Builder) (w : World) (e : BuildError)
    (hs : b.Splash ≠ "")
    (hrd : env.readFile b.Splash = ([], some e))
    (hwr : env.writeFileErr (joinPath b.scratchDir "splash.bmp") = none) :
    generateSplash env b w =
      (.ok, appendSection b ⟨.Splash, joinPath b.scratchDir "splash.bmp", true, true⟩,
        { w with fs := (joinPath b.scratchDir "splash.bmp", []) :: w.fs }) := by
  simp [generateSplash, writeFile, hs, hrd, hwr]

/-- Witness for C6 at a concrete environment and builder. -/
theorem c6_splash_unreadable_witness :
    ({ freshBuilder with Splash := "/missing.bmp", scratchDir := "/scratch" } : Builder).Splash ≠ ""
    ∧ splashFailEnv.readFile "/missing.bmp" = ([], some (.ext 3))
    ∧ splashFailEnv.writeFileErr (joinPath "/scratch" "splash.bmp") = none
    ∧ generateSplash splashFailEnv
        { freshBuilder with Splash := "/missing.bmp", scratchDir := "/scratch" } emptyWorld =
      (.ok, appendSection { freshBuilder with Splash := "/missing.bmp", scratchDir := "/scratch" }
          ⟨.Splash, joinPath "/scratch" "splash.bmp", true, true⟩,
        { emptyWorld with fs := [(joinPath "/scratch" "splash.bmp", [])] }) :=
  ⟨by simp, rfl, rfl,
    c6_splash_unreadable splashFailEnv
      { freshBuilder with Splash := "/missing.bmp", scratchDir := "/scratch" }
      emptyWorld (.ext 3) (by simp) rfl rfl⟩

/-- C7: when kernel-version recovery yields no version string, the uname
generator succeeds without appending any section or writing anything, and
a whole build with a failing probe (and an otherwise valid configuration)
still succeeds with no Uname section in the final list. -/
theorem c7_uname_skip (env : Env) (b : Builder) (w : World) :
    (∀ e, env.discoverKernelVersion b.KernelPath = ("", e) →
      generateUname env b w = (.ok, b, w))
    ∧ (Build unameFailEnv freshBuilder).result = .ok
    ∧ ∀ s ∈ (Build unameFailEnv freshBuilder).builder.sections,
        s.Name ≠ SectionName.Uname := by
  refine ⟨?_, rfl, ?_⟩
  · intro e he
    simp [generateUname, he]
  · decide

/-- Witness for C7 at a concrete environment and builder. -/
theorem c7_uname_skip_witness :
    unameFailEnv.discoverKernelVersion freshBuilder.KernelPath = ("", some (.ext 5))
    ∧ generateUname unameFailEnv freshBuilder emptyWorld = (.ok, freshBuilder, emptyWorld) :=
  ⟨rfl, (c7_uname_skip unameFailEnv freshBuilder emptyWorld).1 (some (.ext 5)) rfl⟩

/-- C8: the command-line generator writes exactly the configured string's
bytes - no terminator, no transformation - to the cmdline file in the
scratch directory, and appends the CMDLine section; concretely, for the
cmdline "console=ttyS0 reboot=k" of the all-success build, the one write
to the cmdline path has exactly those bytes as content. -/
theorem c8_cmdline_verbatim (env : Env) (b : Builder) (w : World)
    (hwr : env.writeFileErr (joinPath b.scratchDir "cmdline") = none) :
    generateCmdline env b w =
      (.ok, appendSection b ⟨.CMDLine, joinPath b.scratchDir "cmdline", true, true⟩,
        { w with fs := (joinPath b.scratchDir "cmdline", strBytes b.Cmdline) :: w.fs })
    ∧ ((Build okEnv freshBuilder).world.fs.filter
        (fun pr => decide (pr.1 = joinPath "/tmp/ukify1" "cmdline"))).map Prod.snd =
        [strBytes "console=ttyS0 reboot=k"] := by
  constructor
  · unfold generateCmdline writeFile
    rw [hwr]
  · rfl

/-- Witness for C8 at a concrete environment and builder. -/
theorem c8_cmdline_verbatim_witness :
    okEnv.writeFileErr (joinPath "/scratch" "cmdline") = none
    ∧ generateCmdline okEnv { freshBuilder with scratchDir := "/scratch" } emptyWorld =
      (.ok, appendSection { freshBuilder with scratchDir := "/scratch" }
          ⟨.CMDLine, joinPath "/scratch" "cmdline", true, true⟩,
        { emptyWorld with fs :=
            [(joinPath "/scratch" "cmdline", strBytes "console=ttyS0 reboot=k")] }) :=
  ⟨rfl,
    (c8_cmdline_verbatim okEnv { freshBuilder with scratchDir := "/scratch" }
      emptyWorld rfl).1⟩

/-! ### Shape of a generator step regardless of outcome -/

lemma generateOSRel_nonok {env : Env} {b b1 : Builder} {w w1 : World} {r : StepResult}
    (h : generateOSRel env b w = (r, b1, w1)) (hr : r ≠ .ok) : b1 = b := by
  simp only [generateOSRel] at h
  repeat' split at h
  all_goals cases h
  all_goals first | rfl | exact absurd rfl hr

lemma generateCmdline_nonok {env : Env} {b b1 : Builder} {w w1 : World} {r : StepResult}
    (h : generateCmdline env b w = (r, b1, w1)) (hr : r ≠ .ok) : b1 = b := by
  simp only [generateCmdline] at h
  repeat' split at h
  all_goals cases h
  all_goals first | rfl | exact absurd rfl hr

lemma generateInitrd_nonok {env : Env} {b b1 : Builder} {w w1 : World} {r : StepResult}
    (h : generateInitrd env b w = (r, b1, w1)) (hr : r ≠ .ok) : b1 = b := by
  simp only [generateInitrd] at h
  cases h
  exact absurd rfl hr

lemma generateSplash_nonok {env : Env} {b b1 : Builder} {w w1 : World} {r : StepResult}
    (h : generateSplash env b w = (r, b1, w1)) (hr : r ≠ .ok) : b1 = b := by
  simp only [generateSplash] at h
  repeat' split at h
  all_goals cases h
  all_goals first | rfl | exact absurd rfl hr

lemma generateUname_nonok {env : Env} {b b1 : Builder} {w w1 : World} {r : StepResult}
    (h : generateUname env b w = (r, b1, w1)) (hr : r ≠ .ok) : b1 = b := by
  simp only [generateUname] at h
  repeat' split at h
  all_goals cases h
  all_goals first | rfl | exact absurd rfl hr

lemma generateSBAT_nonok {env : Env} {b b1 : Builder} {w w1 : World} {r : StepResult}
    (h : generateSBAT env b w = (r, b1, w1)) (hr : r ≠ .ok) : b1 = b := by
  simp only [generateSBAT] at h
  repeat' split at h
  all_goals cases h
  all_goals first | rfl | exact absurd rfl hr

lemma generatePCRPublicKey_nonok {env : Env} {b b1 : Builder} {w w1 : World} {r : StepResult}
    (h : generatePCRPublicKey env b w = (r, b1, w1)) (hr : r ≠ .ok) : b1 = b := by
  simp only [generatePCRPublicKey] at h
  repeat' split at h
  all_goals cases h
  all_goals first | rfl | exact absurd rfl hr

lemma generateKernel_nonok {env : Env} {b b1 : Builder} {w w1 : World} {r : StepResult}
    (h : generateKernel env b w = (r, b1, w1)) (hr : r ≠ .ok) : b1 = b := by
  simp only [generateKernel] at h
  cases h
  exact absurd rfl hr

lemma generatePCRSig_nonok {env : Env} {b b1 : Builder} {w w1 : World} {r : StepResult}
    (h : generatePCRSig env b w = (r, b1, w1)) (hr : r ≠ .ok) : b1 = b := by
  simp only [generatePCRSig] at h
  repeat' split at h
  all_goals cases h
  all_goals first | rfl | exact absurd rfl hr

lemma generateOSRel_mc {env : Env} {b b1 : Builder} {w w1 : World} {r : StepResult}
    (h : generateOSRel env b w = (r, b1, w1)) : w1.measureCalls = w.measureCalls := by
  simp only [generateOSRel] at h
  repeat' split at h
  all_goals cases h
  all_goals first | rfl | exact writeFile_ok_measureCalls (by assumption)

lemma generateCmdline_mc {env : Env} {b b1 : Builder} {w w1 : World} {r : StepResult}
    (h : generateCmdline env b w = (r, b1, w1)) : w1.measureCalls = w.measureCalls := by
  simp only [generateCmdline] at h
  repeat' split at h
  all_goals cases h
  all_goals first | rfl | exact writeFile_ok_measureCalls (by assumption)

lemma generateInitrd_mc {env : Env} {b b1 : Builder} {w w1 : World} {r : StepResult}
    (h : generateInitrd env b w = (r, b1, w1)) : w1.measureCalls = w.measureCalls := by
  simp only [generateInitrd] at h
  cases h
  rfl

lemma generateSplash_mc {env : Env} {b b1 : Builder} {w w1 : World} {r : StepResult}
    (h : generateSplash env b w = (r, b1, w1)) : w1.measureCalls = w.measureCalls := by
  simp only [generateSplash] at h
  repeat' split at h
  all_goals cases h
  all_goals first | rfl | exact writeFile_ok_measureCalls (by assumption)

lemma generateUname_mc {env : Env} {b b1 : Builder} {w w1 : World} {r : StepResult}
    (h : generateUname env b w = (r, b1, w1)) : w1.measureCalls = w.measureCalls := by
  simp only [generateUname] at h
  repeat' split at h
  all_goals cases h
  all_goals first | rfl | exact writeFile_ok_measureCalls (by assumption)

lemma generateSBAT_mc {env : Env} {b b1 : Builder} {w w1 : World} {r : StepResult}
    (h : generateSBAT env b w = (r, b1, w1)) : w1.measureCalls = w.measureCalls := by
  simp only [generateSBAT] at h
  repeat' split at h
  all_goals cases h
  all_goals first | rfl | exact writeFile_ok_measureCalls (by assumption)

lemma generatePCRPublicKey_mc {env : Env} {b b1 : Builder} {w w1 : World} {r : StepResult}
    (h : generatePCRPublicKey env b w = (r, b1, w1)) : w1.measureCalls = w.measureCalls := by
  simp only [generatePCRPublicKey] at h
  repeat' split at h
  all_goals cases h
  all_goals first | rfl | exact writeFile_ok_measureCalls (by assumption)

lemma generateKernel_mc {env : Env} {b b1 : Builder} {w w1 : World} {r : StepResult}
    (h : generateKernel env b w = (r, b1, w1)) : w1.measureCalls = w.measureCalls := by
  simp only [generateKernel] at h
  cases h
  rfl

lemma generatePCRSig_mc {env : Env} {b b1 : Builder} {w w1 : World} {r : StepResult}
    (h : generatePCRSig env b w = (r, b1, w1)) :
    w1.measureCalls = w.measureCalls ++ [pcrSigMapping b] := by
  simp only [generatePCRSig] at h
  repeat' split at h
  all_goals cases h
  all_goals first
    | rfl
    | (rw [writeFile_ok_measureCalls (by assumption)]; first | rfl | split <;> rfl)

/-- A section whose name is PCRSig is never flagged for measurement. -/
def PCRSigUnmeasured (l : List UkiSection) : Prop :=
  ∀ s ∈ l, s.Name = SectionName.PCRSig → s.Measure = false

/-- Shape of one generator step: the builder only gains appended sections
(each PCRSig-safe), and the world only gains measurement-engine calls, each
being the measured-section mapping of the builder the step started from. -/
def GenShape (g : Gen) : Prop := ∀ env b w,
  (∃ t, (g env b w).2.1 = { b with sections := b.sections ++ t }
     ∧ PCRSigUnmeasured t)
  ∧ (∃ ms, (g env b w).2.2.measureCalls = w.measureCalls ++ ms
     ∧ ∀ m ∈ ms, m = pcrSigMapping b)

lemma pcrSigMapping_no_pcrsig {b : Builder} (h : PCRSigUnmeasured b.sections) :
    ∀ pr ∈ pcrSigMapping b, pr.1 ≠ SectionName.PCRSig := by
  intro pr hpr
  simp only [pcrSigMapping, List.mem_map, List.mem_filter] at hpr
  obtain ⟨s, ⟨hmem, hMeas⟩, rfl⟩ := hpr
  intro hname
  have := h s hmem hname
  simp [this] at hMeas

lemma genShape_mk (g : Gen)
    (hok : ∀ env (b b1 : Builder) (w w1 : World), g env b w = (.ok, b1, w1) →
      ∃ t, b1 = { b with sections := b.sections ++ t } ∧ PCRSigUnmeasured t)
    (hnonok : ∀ env (b b1 : Builder) (w w1 : World) r, g env b w = (r, b1, w1) →
      r ≠ .ok → b1 = b)
    (hmc : ∀ env (b b1 : Builder) (w w1 : World) r, g env b w = (r, b1, w1) →
      ∃ ms, w1.measureCalls = w.measureCalls ++ ms ∧ ∀ m ∈ ms, m = pcrSigMapping b) :
    GenShape g := by
  intro env b w
  rcases hg : g env b w with ⟨r, b1, w1⟩
  constructor
  · dsimp only
    cases r with
    | ok => exact hok env b b1 w w1 hg
    | fail e =>
      refine ⟨[], ?_, by intro s hs; simp at hs⟩
      rw [hnonok env b b1 w w1 _ hg (by simp)]
      simp
    | panicked =>
      refine ⟨[], ?_, by intro s hs; simp at hs⟩
      rw [hnonok env b b1 w w1 _ hg (by simp)]
      simp
  · dsimp only
    exact hmc env b b1 w w1 r hg

lemma generateOSRel_genShape : GenShape generateOSRel := by
  refine genShape_mk _ ?_ ?_ ?_
  · intro env b b1 w w1 h
    obtain ⟨p, e⟩ := generateOSRel_ok h
    exact ⟨_, e, by intro s hs; simp at hs; simp [hs]⟩
  · intro env b b1 w w1 r h hr
    exact generateOSRel_nonok h hr
  · intro env b b1 w w1 r h
    exact ⟨[], by simp [generateOSRel_mc h], by simp⟩

lemma generateCmdline_genShape : GenShape generateCmdline := by
  refine genShape_mk _ ?_ ?_ ?_
  · intro env b b1 w w1 h
    obtain ⟨p, e⟩ := generateCmdline_ok h
    exact ⟨_, e, by intro s hs; simp at hs; simp [hs]⟩
  · intro env b b1 w w1 r h hr
    exact generateCmdline_nonok h hr
  · intro env b b1 w w1 r h
    exact ⟨[], by simp [generateCmdline_mc h], by simp⟩

lemma generateInitrd_genShape : GenShape generateInitrd := by
  refine genShape_mk _ ?_ ?_ ?_
  · intro env b b1 w w1 h
    obtain ⟨p, e⟩ := generateInitrd_ok h
    exact ⟨_, e, by intro s hs; simp at hs; simp [hs]⟩
  · intro env b b1 w w1 r h hr
    exact generateInitrd_nonok h hr
  · intro env b b1 w w1 r h
    exact ⟨[], by simp [generateInitrd_mc h], by simp⟩

lemma generateSplash_genShape : GenShape generateSplash := by
  refine genShape_mk _ ?_ ?_ ?_
  · intro env b b1 w w1 h
    obtain ⟨p, e⟩ := generateSplash_ok h
    exact ⟨_, e, by intro s hs; simp at hs; simp [hs]⟩
  · intro env b b1 w w1 r h hr
    exact generateSplash_nonok h hr
  · intro env b b1 w w1 r h
    exact ⟨[], by simp [generateSplash_mc h], by simp⟩

lemma generateUname_genShape : GenShape generateUname := by
  refine genShape_mk _ ?_ ?_ ?_
  · intro env b b1 w w1 h
    rcases generateUname_ok h with e | ⟨p, e⟩
    · exact ⟨[], by rw [e]; simp, by intro s hs; simp at hs⟩
    · exact ⟨_, e, by intro s hs; simp at hs; simp [hs]⟩
  · intro env b b1 w w1 r h hr
    exact generateUname_nonok h hr
  · intro env b b1 w w1 r h
    exact ⟨[], by simp [generateUname_mc h], by simp⟩

lemma generateSBAT_genShape : GenShape generateSBAT := by
  refine genShape_mk _ ?_ ?_ ?_
  · intro env b b1 w w1 h
    obtain ⟨p, e⟩ := generateSBAT_ok h
    exact ⟨_, e, by intro s hs; simp at hs; simp [hs]⟩
  · intro env b b1 w w1 r h hr
    exact generateSBAT_nonok h hr
  · intro env b b1 w w1 r h
    exact ⟨[], by simp [generateSBAT_mc h], by simp⟩

lemma generatePCRPublicKey_genShape : GenShape generatePCRPublicKey := by
  refine genShape_mk _ ?_ ?_ ?_
  · intro env b b1 w w1 h
    obtain ⟨p, e⟩ := generatePCRPublicKey_ok h
    exact ⟨_, e, by intro s hs; simp at hs; simp [hs]⟩
  · intro env b b1 w w1 r h hr
    exact generatePCRPublicKey_nonok h hr
  · intro env b b1 w w1 r h
    exact ⟨[], by simp [generatePCRPublicKey_mc h], by simp⟩

lemma generateKernel_genShape : GenShape generateKernel := by
  refine genShape_mk _ ?_ ?_ ?_
  · intro env b b1 w w1 h
    exact ⟨_, generateKernel_ok h, by intro s hs; simp at hs; simp [hs]⟩
  · intro env b b1 w w1 r h hr
    exact generateKernel_nonok h hr
  · intro env b b1 w w1 r h
    exact ⟨[], by simp [generateKernel_mc h], by simp⟩

lemma generatePCRSig_genShape : GenShape generatePCRSig := by
  refine genShape_mk _ ?_ ?_ ?_
  · intro env b b1 w w1 h
    obtain ⟨p, e⟩ := generatePCRSig_ok h
    exact ⟨_, e, by intro s hs; simp at hs; simp [hs]⟩
  · intro env b b1 w w1 r h hr
    exact generatePCRSig_nonok h hr
  · intro env b b1 w w1 r h
    exact ⟨[pcrSigMapping b], by simp [generatePCRSig_mc h], by simp⟩

lemma generatorsList_genShape : ∀ g ∈ generatorsList, GenShape g := by
  intro g hg
  simp only [generatorsList, List.mem_cons, List.not_mem_nil, or_false] at hg
  rcases hg with rfl | rfl | rfl | rfl | rfl | rfl | rfl | rfl | rfl
  · exact generateOSRel_genShape
  · exact generateCmdline_genShape
  · exact generateInitrd_genShape
  · exact generateSplash_genShape
  · exact generateUname_genShape
  · exact generateSBAT_genShape
  · exact generatePCRPublicKey_genShape
  · exact generateKernel_genShape
  · exact generatePCRSig_genShape

lemma PCRSigUnmeasured_append {l1 l2 : List UkiSection}
    (h1 : PCRSigUnmeasured l1) (h2 : PCRSigUnmeasured l2) :
    PCRSigUnmeasured (l1 ++ l2) := by
  intro s hs
  rcases List.mem_append.mp hs with h | h
  · exact h1 s h
  · exact h2 s h

lemma runGenerators_shape (env : Env) (gs : List Gen) (hgs : ∀ g ∈ gs, GenShape g) :
    ∀ b w,
      (∃ t, (runGenerators env gs b w).2.1 = { b with sections := b.sections ++ t }
        ∧ PCRSigUnmeasured t)
      ∧ (∃ ms, (runGenerators env gs b w).2.2.measureCalls = w.measureCalls ++ ms
        ∧ (PCRSigUnmeasured b.sections →
            ∀ m ∈ ms, ∀ pr ∈ m, pr.1 ≠ SectionName.PCRSig)) := by
  induction gs with
  | nil =>
    intro b w
    constructor
    · exact ⟨[], by simp [runGenerators], by intro s hs; simp at hs⟩
    · exact ⟨[], by simp [runGenerators], by intro _ m hm; simp at hm⟩
  | cons g gs ih =>
    intro b w
    have hgshape := hgs g (by simp)
    have ihs : ∀ g0 ∈ gs, GenShape g0 := fun g0 h0 => hgs g0 (by simp [h0])
    obtain ⟨⟨t1, hb1, ht1⟩, ⟨ms1, hw1, hms1⟩⟩ := hgshape env b w
    simp only [runGenerators]
    rcases hg : g env b w with ⟨r, b1, w1⟩
    rw [hg] at hb1 hw1
    dsimp only at hb1 hw1
    subst hb1
    cases r with
    | ok =>
      dsimp only
      obtain ⟨⟨t2, hb2, ht2⟩, ⟨ms2, hw2, hms2⟩⟩ := ih ihs _ w1
      constructor
      · refine ⟨t1 ++ t2, ?_, PCRSigUnmeasured_append ht1 ht2⟩
        rw [hb2]
        simp
      · refine ⟨ms1 ++ ms2, ?_, ?_⟩
        · rw [hw2, hw1]
          simp
        · intro hinv m hm
          rcases List.mem_append.mp hm with h | h
          · rw [hms1 m h]
            exact pcrSigMapping_no_pcrsig hinv
          · refine hms2 ?_ m h
            exact PCRSigUnmeasured_append hinv ht1
    | fail e =>
      dsimp only
      constructor
      · exact ⟨t1, rfl, ht1⟩
      · refine ⟨ms1, hw1, ?_⟩
        intro hinv m hm
        rw [hms1 m hm]
        exact pcrSigMapping_no_pcrsig hinv
    | panicked =>
      dsimp only
      constructor
      · exact ⟨t1, rfl, ht1⟩
      · refine ⟨ms1, hw1, ?_⟩
        intro hinv m hm
        rw [hms1 m hm]
        exact pcrSigMapping_no_pcrsig hinv

lemma signSdBoot_shape (env : Env) (b : Builder) (w : World) :
    (signSdBoot env b w).2.1.sections = b.sections
    ∧ (signSdBoot env b w).2.1.Logger = b.Logger
    ∧ (signSdBoot env b w).2.2 = w := by
  unfold signSdBoot
  repeat' split
  all_goals exact ⟨rfl, rfl, rfl⟩

lemma assembleAndSign_shape (env : Env) (b : Builder) (w : World) :
    (assembleAndSign env b w).2.1.sections = b.sections
    ∧ (assembleAndSign env b w).2.1.Logger = b.Logger
    ∧ (assembleAndSign env b w).2.2 = w := by
  simp only [assembleAndSign]
  repeat' split
  all_goals exact ⟨rfl, rfl, rfl⟩

lemma buildInner_shape (env : Env) (b : Builder) (w : World) :
    (∃ t, (buildInner env b w).2.1.sections = b.sections ++ t ∧ PCRSigUnmeasured t)
    ∧ (buildInner env b w).2.1.Logger = b.Logger
    ∧ (∃ ms, (buildInner env b w).2.2.measureCalls = w.measureCalls ++ ms
        ∧ (PCRSigUnmeasured b.sections →
            ∀ m ∈ ms, ∀ pr ∈ m, pr.1 ≠ SectionName.PCRSig)) := by
  unfold buildInner
  rcases h1 : signSdBoot env b w with ⟨r1, b1, w1⟩
  have hs1 := signSdBoot_shape env b w
  rw [h1] at hs1
  dsimp only at hs1
  obtain ⟨hsec1, hlog1, hw1⟩ := hs1
  cases r1 with
  | ok =>
    dsimp only
    rcases h2 : runGenerators env generatorsList b1 w1 with ⟨r2, b2, w2⟩
    have hs2 := runGenerators_shape env generatorsList generatorsList_genShape b1 w1
    rw [h2] at hs2
    dsimp only at hs2
    obtain ⟨⟨t, hb2, ht⟩, ⟨ms, hw2, hms⟩⟩ := hs2
    subst hb2
    rw [hw1] at hw2
    have hmsb : PCRSigUnmeasured b.sections →
        ∀ m ∈ ms, ∀ pr ∈ m, pr.1 ≠ SectionName.PCRSig := by
      intro hinv
      refine hms ?_
      rw [hsec1]
      exact hinv
    cases r2 with
    | ok =>
      have hs3 := assembleAndSign_shape env { b1 with sections := b1.sections ++ t } w2
      obtain ⟨hsec3, hlog3, hw3⟩ := hs3
      refine ⟨⟨t, ?_, ht⟩, ?_, ⟨ms, ?_, hmsb⟩⟩
      · rw [hsec3]
        dsimp only
        rw [hsec1]
      · rw [hlog3]
        dsimp only
        exact hlog1
      · rw [hw3]
        exact hw2
    | fail e =>
      exact ⟨⟨t, by dsimp only; rw [hsec1], ht⟩, by dsimp only; exact hlog1,
        ⟨ms, hw2, hmsb⟩⟩
    | panicked =>
      exact ⟨⟨t, by dsimp only; rw [hsec1], ht⟩, by dsimp only; exact hlog1,
        ⟨ms, hw2, hmsb⟩⟩
  | fail e =>
    exact ⟨⟨[], by dsimp only; rw [hsec1]; simp, by intro s hs; simp at hs⟩,
      by dsimp only; exact hlog1,
      ⟨[], by dsimp only; rw [hw1]; simp, by intro _ m hm; simp at hm⟩⟩
  | panicked =>
    exact ⟨⟨[], by dsimp only; rw [hsec1]; simp, by intro s hs; simp at hs⟩,
      by dsimp only; exact hlog1,
      ⟨[], by dsimp only; rw [hw1]; simp, by intro _ m hm; simp at hm⟩⟩

lemma Build_shape (env : Env) (b0 : Builder) :
    (∃ t, (Build env b0).builder.sections = b0.sections ++ t ∧ PCRSigUnmeasured t)
    ∧ (Build env b0).builder.Logger = (installLogger env b0).Logger
    ∧ (PCRSigUnmeasured b0.sections →
        ∀ m ∈ (Build env b0).world.measureCalls, ∀ pr ∈ m, pr.1 ≠ SectionName.PCRSig) := by
  rw [Build_eq]
  rcases h1 : resolvePCRSigner env (installLogger env b0) with e | b2
  · dsimp only
    refine ⟨⟨[], by simp [installLogger_sections], by intro s hs; simp at hs⟩, rfl, ?_⟩
    intro _ m hm
    simp [emptyWorld] at hm
  dsimp only
  have hb2 := resolvePCRSigner_ok h1
  have hsec2 : b2.sections = b0.sections := by
    rcases hb2 with rfl | ⟨k, rfl⟩ <;> simp [installLogger_sections]
  have hlog2 : b2.Logger = (installLogger env b0).Logger := by
    rcases hb2 with rfl | ⟨k, rfl⟩ <;> rfl
  rcases h2 : resolveSBSigner env b2 with e | b3
  · dsimp only
    refine ⟨⟨[], by simp [hsec2], by intro s hs; simp at hs⟩, hlog2, ?_⟩
    intro _ m hm
    simp [emptyWorld] at hm
  dsimp only
  have hb3 := resolveSBSigner_ok h2
  have hsec3 : b3.sections = b0.sections := by
    rcases hb3 with rfl | ⟨cs, rfl⟩ <;> simp [hsec2]
  have hlog3 : b3.Logger = (installLogger env b0).Logger := by
    rcases hb3 with rfl | ⟨cs, rfl⟩ <;> simp [hlog2]
  rcases h3 : env.mkdirTemp with e | dir
  · dsimp only
    refine ⟨⟨[], by simp [hsec3], by intro s hs; simp at hs⟩, hlog3, ?_⟩
    intro _ m hm
    simp [emptyWorld] at hm
  dsimp only
  rcases h4 : buildInner env { b3 with scratchDir := dir } emptyWorld with ⟨res, b5, w5⟩
  have hs5 := buildInner_shape env { b3 with scratchDir := dir } emptyWorld
  rw [h4] at hs5
  dsimp only at hs5
  obtain ⟨⟨t, hsec5, ht⟩, hlog5, ⟨ms, hmc5, hms5⟩⟩ := hs5
  dsimp only
  refine ⟨⟨t, by rw [hsec5, hsec3], ht⟩, by rw [hlog5]; exact hlog3, ?_⟩
  intro hinv m hm
  have hmDrop : m ∈ w5.measureCalls := by
    rcases h6 : env.removeAllErr dir with _ | e6
    · rw [h6] at hm
      exact hm
    · rw [h6] at hm
      exact hm
  rw [hmc5] at hmDrop
  simp only [emptyWorld, List.nil_append] at hmDrop
  refine hms5 ?_ m hmDrop
  show PCRSigUnmeasured b3.sections
  rw [hsec3]
  exact hinv

/-! ### The build result does not depend on the logging fields -/

/-- Forget the two logging fields of a builder. -/
def eraseLog (b : Builder) : Builder := { b with Logger := none, LogLevel := "" }

/-- A generator is logging-independent when two builders that agree on
everything but the logging fields produce, in any worlds, the same step
result and logging-agreeing builders. -/
def LogIndep (g : Gen) : Prop := ∀ env b b' w w',
  eraseLog b = eraseLog b' →
  (g env b w).1 = (g env b' w').1
  ∧ eraseLog (g env b w).2.1 = eraseLog (g env b' w').2.1

lemma eraseLog_appendSection (b : Builder) (s : UkiSection) :
    eraseLog (appendSection b s) = appendSection (eraseLog b) s := rfl

lemma generateOSRel_logIndep : LogIndep generateOSRel := by
  intro env b b' w w' hb
  have hos : b'.OsRelease = b.OsRelease := (congrArg Builder.OsRelease hb).symm
  have hver : b'.Version = b.Version := (congrArg Builder.Version hb).symm
  have hscr : b'.scratchDir = b.scratchDir := (congrArg Builder.scratchDir hb).symm
  by_cases hcase : b.OsRelease ≠ ""
  · simp only [generateOSRel, writeFile, hos, hver, hscr, if_pos hcase]
    exact ⟨by trivial, by first | trivial | simp only [eraseLog_appendSection, hb]⟩
  · simp only [generateOSRel, writeFile, hos, hver, hscr, if_neg hcase]
    rcases env.osReleaseFor b.Version with e | bytes
    all_goals dsimp only
    · exact ⟨by trivial, hb⟩
    rcases env.writeFileErr (joinPath b.scratchDir "os-release") with _ | e
    all_goals dsimp only
    · exact ⟨by trivial, by first | trivial | simp only [eraseLog_appendSection, hb]⟩
    · exact ⟨by trivial, hb⟩

lemma generateCmdline_logIndep : LogIndep generateCmdline := by
  intro env b b' w w' hb
  have hcmd : b'.Cmdline = b.Cmdline := (congrArg Builder.Cmdline hb).symm
  have hscr : b'.scratchDir = b.scratchDir := (congrArg Builder.scratchDir hb).symm
  simp only [generateCmdline, writeFile, hcmd, hscr]
  rcases env.writeFileErr (joinPath b.scratchDir "cmdline") with _ | e
  all_goals dsimp only
  · exact ⟨by trivial, by first | trivial | simp only [eraseLog_appendSection, hb]⟩
  · exact ⟨by trivial, hb⟩

lemma generateInitrd_logIndep : LogIndep generateInitrd := by
  intro env b b' w w' hb
  have hin : b'.InitrdPath = b.InitrdPath := (congrArg Builder.InitrdPath hb).symm
  simp only [generateInitrd, hin]
  exact ⟨by trivial, by first | trivial | simp only [eraseLog_appendSection, hb]⟩

lemma generateSplash_logIndep : LogIndep generateSplash := by
  intro env b b' w w' hb
  have hsp : b'.Splash = b.Splash := (congrArg Builder.Splash hb).symm
  have hscr : b'.scratchDir = b.scratchDir := (congrArg Builder.scratchDir hb).symm
  simp only [generateSplash, writeFile, hsp, hscr]
  rcases env.writeFileErr (joinPath b.scratchDir "splash.bmp") with _ | e
  all_goals dsimp only
  · exact ⟨by trivial, by first | trivial | simp only [eraseLog_appendSection, hb]⟩
  · exact ⟨by trivial, hb⟩

lemma generateUname_logIndep : LogIndep generateUname := by
  intro env b b' w w' hb
  have hk : b'.KernelPath = b.KernelPath := (congrArg Builder.KernelPath hb).symm
  have hscr : b'.scratchDir = b.scratchDir := (congrArg Builder.scratchDir hb).symm
  by_cases hv : (env.discoverKernelVersion b.KernelPath).1 = ""
  · simp only [generateUname, writeFile, hk, hscr, if_pos hv]
    exact ⟨by trivial, hb⟩
  · simp only [generateUname, writeFile, hk, hscr, if_neg hv]
    rcases env.writeFileErr (joinPath b.scratchDir "uname") with _ | e
    all_goals dsimp only
    · exact ⟨by trivial, by first | trivial | simp only [eraseLog_appendSection, hb]⟩
    · exact ⟨by trivial, hb⟩

lemma generateSBAT_logIndep : LogIndep generateSBAT := by
  intro env b b' w w' hb
  have hst : b'.SdStubPath = b.SdStubPath := (congrArg Builder.SdStubPath hb).symm
  have hscr : b'.scratchDir = b.scratchDir := (congrArg Builder.scratchDir hb).symm
  simp only [generateSBAT, writeFile, hst, hscr]
  rcases env.getSBAT b.SdStubPath with e | sbat
  all_goals dsimp only
  · exact ⟨by trivial, hb⟩
  rcases env.writeFileErr (joinPath b.scratchDir "sbat") with _ | e
  all_goals dsimp only
  · exact ⟨by trivial, by first | trivial | simp only [eraseLog_appendSection, hb]⟩
  · exact ⟨by trivial, hb⟩

lemma generatePCRPublicKey_logIndep : LogIndep generatePCRPublicKey := by
  intro env b b' w w' hb
  have hpk : b'.PCRSigner = b.PCRSigner := (congrArg Builder.PCRSigner hb).symm
  have hscr : b'.scratchDir = b.scratchDir := (congrArg Builder.scratchDir hb).symm
  simp only [generatePCRPublicKey, writeFile, hpk, hscr]
  rcases b.PCRSigner with _ | signer
  all_goals dsimp only
  · exact ⟨by trivial, hb⟩
  rcases env.marshalPKIXPublicKey signer.pub with e | bytes
  all_goals dsimp only
  · exact ⟨by trivial, hb⟩
  rcases env.writeFileErr (joinPath b.scratchDir "pcr-public.pem") with _ | e
  all_goals dsimp only
  · exact ⟨by trivial, by first | trivial | simp only [eraseLog_appendSection, hb]⟩
  · exact ⟨by trivial, hb⟩

lemma generateKernel_logIndep : LogIndep generateKernel := by
  intro env b b' w w' hb
  have hk : b'.KernelPath = b.KernelPath := (congrArg Builder.KernelPath hb).symm
  simp only [generateKernel, hk]
  exact ⟨by trivial, by first | trivial | simp only [eraseLog_appendSection, hb]⟩

lemma generatePCRSig_logIndep : LogIndep generatePCRSig := by
  intro env b b' w w' hb
  have hpk : b'.PCRSigner = b.PCRSigner := (congrArg Builder.PCRSigner hb).symm
  have hscr : b'.scratchDir = b.scratchDir := (congrArg Builder.scratchDir hb).symm
  have hsec : b'.sections = b.sections := (congrArg Builder.sections hb).symm
  have hmap : pcrSigMapping b' = pcrSigMapping b := by
    simp [pcrSigMapping, hsec]
  simp only [generatePCRSig, writeFile, hpk, hscr, hmap]
  rcases b.PCRSigner with _ | signer
  all_goals dsimp only
  · exact ⟨by trivial, hb⟩
  rcases env.generateSignedPCR (pcrSigMapping b) signer UKIPCR with e | pcrData
  all_goals dsimp only
  · exact ⟨by trivial, hb⟩
  rcases env.jsonMarshal pcrData with e | bytesJson
  all_goals dsimp only
  · exact ⟨by trivial, hb⟩
  rcases env.writeFileErr (joinPath b.scratchDir "pcrpsig") with _ | e
  all_goals dsimp only
  · exact ⟨by trivial, by first | trivial | simp only [eraseLog_appendSection, hb]⟩
  · exact ⟨by trivial, hb⟩

lemma generatorsList_logIndep : ∀ g ∈ generatorsList, LogIndep g := by
  intro g hg
  simp only [generatorsList, List.mem_cons, List.not_mem_nil, or_false] at hg
  rcases hg with rfl | rfl | rfl | rfl | rfl | rfl | rfl | rfl | rfl
  · exact generateOSRel_logIndep
  · exact generateCmdline_logIndep
  · exact generateInitrd_logIndep
  · exact generateSplash_logIndep
  · exact generateUname_logIndep
  · exact generateSBAT_logIndep
  · exact generatePCRPublicKey_logIndep
  · exact generateKernel_logIndep
  · exact generatePCRSig_logIndep

lemma runGenerators_logIndep (env : Env) (gs : List Gen) (hgs : ∀ g ∈ gs, LogIndep g) :
    ∀ b b' w w', eraseLog b = eraseLog b' →
      (runGenerators env gs b w).1 = (runGenerators env gs b' w').1
      ∧ eraseLog (runGenerators env gs b w).2.1 = eraseLog (runGenerators env gs b' w').2.1 := by
  induction gs with
  | nil =>
    intro b b' w w' hb
    exact ⟨rfl, hb⟩
  | cons g gs ih =>
    intro b b' w w' hb
    have hgi := hgs g (by simp) env b b' w w' hb
    have ihs : ∀ g0 ∈ gs, LogIndep g0 := fun g0 h0 => hgs g0 (by simp [h0])
    simp only [runGenerators]
    rcases hg : g env b w with ⟨r, b1, w1⟩
    rcases hg' : g env b' w' with ⟨r', b1', w1'⟩
    rw [hg, hg'] at hgi
    dsimp only at hgi
    obtain ⟨hr, hb1⟩ := hgi
    subst hr
    cases r with
    | ok => exact ih ihs b1 b1' w1 w1' hb1
    | fail e => exact ⟨rfl, hb1⟩
    | panicked => exact ⟨rfl, hb1⟩

lemma signSdBoot_logIndep (env : Env) (b b' : Builder) (w w' : World)
    (hb : eraseLog b = eraseLog b') :
    (signSdBoot env b w).1 = (signSdBoot env b' w').1
    ∧ eraseLog (signSdBoot env b w).2.1 = eraseLog (signSdBoot env b' w').2.1 := by
  have hsd : b'.SdBootPath = b.SdBootPath := (congrArg Builder.SdBootPath hb).symm
  have hsb : b'.SecureBootSigner = b.SecureBootSigner :=
    (congrArg Builder.SecureBootSigner hb).symm
  have hout : b'.OutSdBootPath = b.OutSdBootPath := (congrArg Builder.OutSdBootPath hb).symm
  by_cases hc : b.SdBootPath ≠ ""
  · simp only [signSdBoot, hsd, hsb, hout, if_pos hc]
    rcases b.SecureBootSigner with _ | cs
    all_goals dsimp only
    · exact ⟨by trivial, hb⟩
    rcases env.newSigner cs with e | s
    all_goals dsimp only
    · exact ⟨by trivial, hb⟩
    rcases env.signErr s b.SdBootPath b.OutSdBootPath with _ | e
    all_goals dsimp only
    · refine ⟨by trivial, ?_⟩
      simp only [eraseLog, Builder.mk.injEq] at hb ⊢
      simp_all
    · refine ⟨by trivial, ?_⟩
      simp only [eraseLog, Builder.mk.injEq] at hb ⊢
      simp_all
  · simp only [signSdBoot, hsd, hsb, hout, if_neg hc]
    exact ⟨by trivial, hb⟩

lemma assembleAndSign_logIndep (env : Env) (b b' : Builder) (w w' : World)
    (hb : eraseLog b = eraseLog b') :
    (assembleAndSign env b w).1 = (assembleAndSign env b' w').1 := by
  have hst : b'.SdStubPath = b.SdStubPath := (congrArg Builder.SdStubPath hb).symm
  have hsec : b'.sections = b.sections := (congrArg Builder.sections hb).symm
  have hpe : b'.peSigner = b.peSigner := (congrArg Builder.peSigner hb).symm
  have hout : b'.OutUKIPath = b.OutUKIPath := (congrArg Builder.OutUKIPath hb).symm
  simp only [assembleAndSign, hst, hsec, hpe, hout]
  rcases env.assembleCall b.SdStubPath b.sections with e | ukiPath
  all_goals try dsimp only
  all_goals try rfl
  rcases b.peSigner with _ | s
  all_goals try dsimp only
  all_goals try rfl
  rcases env.signErr s ukiPath b.OutUKIPath with _ | e
  all_goals try dsimp only
  all_goals try rfl

lemma buildInner_logIndep (env : Env) (b b' : Builder) (w w' : World)
    (hb : eraseLog b = eraseLog b') :
    (buildInner env b w).1 = (buildInner env b' w').1 := by
  unfold buildInner
  rcases h1 : signSdBoot env b w with ⟨r1, b1, w1⟩
  rcases h1' : signSdBoot env b' w' with ⟨r1', b1', w1'⟩
  have hs1 := signSdBoot_logIndep env b b' w w' hb
  rw [h1, h1'] at hs1
  dsimp only at hs1
  obtain ⟨hr1, hb1⟩ := hs1
  subst hr1
  cases r1 with
  | ok =>
    dsimp only
    rcases h2 : runGenerators env generatorsList b1 w1 with ⟨r2, b2, w2⟩
    rcases h2' : runGenerators env generatorsList b1' w1' with ⟨r2', b2', w2'⟩
    have hs2 := runGenerators_logIndep env generatorsList generatorsList_logIndep
      b1 b1' w1 w1' hb1
    rw [h2, h2'] at hs2
    dsimp only at hs2
    obtain ⟨hr2, hb2⟩ := hs2
    subst hr2
    cases r2 with
    | ok =>
      dsimp only
      exact assembleAndSign_logIndep env b2 b2' w2 w2' hb2
    | fail e => rfl
    | panicked => rfl
  | fail e => rfl
  | panicked => rfl

lemma resolvePCRSigner_logIndep (env : Env) (b b' : Builder)
    (hb : eraseLog b = eraseLog b') :
    (∃ e, resolvePCRSigner env b = .error e ∧ resolvePCRSigner env b' = .error e)
    ∨ (∃ b2 b2', resolvePCRSigner env b = .ok b2 ∧ resolvePCRSigner env b' = .ok b2'
        ∧ eraseLog b2 = eraseLog b2') := by
  have hpk : b'.PCRSigner = b.PCRSigner := (congrArg Builder.PCRSigner hb).symm
  have hkey : b'.PCRKey = b.PCRKey := (congrArg Builder.PCRKey hb).symm
  simp only [resolvePCRSigner, hpk, hkey]
  rcases b.PCRSigner with _ | k
  all_goals try dsimp only
  · by_cases hk : b.PCRKey = ""
    · simp only [if_pos hk]
      exact .inl ⟨_, by trivial, by trivial⟩
    · simp only [if_neg hk]
      rcases env.newPCRSigner b.PCRKey with e | k
      all_goals try dsimp only
      · exact .inl ⟨_, by trivial, by trivial⟩
      · refine .inr ⟨_, _, by trivial, by trivial, ?_⟩
        simp only [eraseLog, Builder.mk.injEq] at hb ⊢
        simp_all
  · exact .inr ⟨_, _, by trivial, by trivial, hb⟩

lemma resolveSBSigner_logIndep (env : Env) (b b' : Builder)
    (hb : eraseLog b = eraseLog b') :
    (∃ e, resolveSBSigner env b = .error e ∧ resolveSBSigner env b' = .error e)
    ∨ (∃ b3 b3', resolveSBSigner env b = .ok b3 ∧ resolveSBSigner env b' = .ok b3'
        ∧ eraseLog b3 = eraseLog b3') := by
  have hsb : b'.SecureBootSigner = b.SecureBootSigner :=
    (congrArg Builder.SecureBootSigner hb).symm
  have hc : b'.SBCert = b.SBCert := (congrArg Builder.SBCert hb).symm
  have hk : b'.SBKey = b.SBKey := (congrArg Builder.SBKey hb).symm
  simp only [resolveSBSigner, hsb, hc, hk]
  rcases b.SecureBootSigner with _ | cs
  all_goals try dsimp only
  · by_cases hmiss : b.SBCert = "" ∨ b.SBKey = ""
    · simp only [if_pos hmiss]
      exact .inl ⟨_, by trivial, by trivial⟩
    · simp only [if_neg hmiss]
      rcases env.newSecureBootSigner b.SBCert b.SBKey with e | cs
      all_goals try dsimp only
      · exact .inl ⟨_, by trivial, by trivial⟩
      · refine .inr ⟨_, _, by trivial, by trivial, ?_⟩
        simp only [eraseLog, Builder.mk.injEq] at hb ⊢
        simp_all
  · exact .inr ⟨_, _, by trivial, by trivial, hb⟩

lemma eraseLog_installLogger (env : Env) (b0 : Builder) :
    eraseLog (installLogger env b0) = eraseLog b0 := by
  unfold installLogger
  split <;> rfl

lemma Build_logIndep (env : Env) (b0 b0' : Builder)
    (hb : eraseLog b0 = eraseLog b0') :
    (Build env b0).result = (Build env b0').result := by
  rw [Build_eq, Build_eq]
  have hbi : eraseLog (installLogger env b0) = eraseLog (installLogger env b0') := by
    rw [eraseLog_installLogger, eraseLog_installLogger]
    exact hb
  rcases resolvePCRSigner_logIndep env (installLogger env b0) (installLogger env b0') hbi with
    ⟨e, he, he'⟩ | ⟨b2, b2', h2, h2', hb2⟩
  · rw [he, he']
  · rw [h2, h2']
    dsimp only
    rcases resolveSBSigner_logIndep env b2 b2' hb2 with
      ⟨e, he, he'⟩ | ⟨b3, b3', h3, h3', hb3⟩
    · rw [he, he']
    · rw [h3, h3']
      dsimp only
      rcases env.mkdirTemp with e | dir
      all_goals try dsimp only
      all_goals try rfl
      have hb4 : eraseLog { b3 with scratchDir := dir } =
          eraseLog { b3' with scratchDir := dir } := by
        simp only [eraseLog, Builder.mk.injEq] at hb3 ⊢
        simp_all
      exact buildInner_logIndep env { b3 with scratchDir := dir }
        { b3' with scratchDir := dir } emptyWorld emptyWorld hb4

/-- C10: the logging configuration never causes a build failure: the
process-wide level Build installs is the one computed by the
case-insensitive switch on LogLevel - with Info for every unrecognized
value, including the empty string - a nil Logger is replaced by the
process default logger while a supplied one is kept, and changing the
Logger and LogLevel fields never changes the build result. -/
theorem c10_logging (env : Env) (b0 : Builder) (lg : Option SlogLogger) (lvl : String) :
    (Build env b0).logLevelSet = levelFor b0.LogLevel
    ∧ (Build env b0).builder.Logger = (match b0.Logger with
        | none => some env.slogDefault
        | some l => some l)
    ∧ levelFor "DeBuG" = .debug ∧ levelFor "wArN" = .warn ∧ levelFor "ERROR" = .error
    ∧ levelFor "" = .info ∧ levelFor "unknown-level" = .info
    ∧ (Build env { b0 with Logger := lg, LogLevel := lvl }).result =
        (Build env b0).result := by
  refine ⟨?_, ?_, by decide, by decide, by decide, by decide, by decide, ?_⟩
  · rw [Build_eq]
    have hLL : levelFor (installLogger env b0).LogLevel = levelFor b0.LogLevel := by
      rw [installLogger_LogLevel]
    rcases h1 : resolvePCRSigner env (installLogger env b0) with e | b2
    · dsimp only
      exact hLL
    dsimp only
    rcases h2 : resolveSBSigner env b2 with e | b3
    · dsimp only
      exact hLL
    dsimp only
    rcases h3 : env.mkdirTemp with e | dir
    · dsimp only
      exact hLL
    dsimp only
    rcases h4 : buildInner env { b3 with scratchDir := dir } emptyWorld with ⟨res, b5, w5⟩
    all_goals try dsimp only
    exact hLL
  · have h := (Build_shape env b0).2.1
    rw [h]
    unfold installLogger
    rcases hL : b0.Logger with _ | l
    · rfl
    · dsimp only
      rw [hL]
  · exact Build_logIndep env { b0 with Logger := lg, LogLevel := lvl } b0 rfl

/-- Witness for C10 at a concrete environment and builder. -/
theorem c10_logging_witness :
    (Build okEnv freshBuilder).logLevelSet = levelFor freshBuilder.LogLevel
    ∧ (Build okEnv { freshBuilder with Logger := none, LogLevel := "WARN" }).result =
        (Build okEnv freshBuilder).result :=
  ⟨(c10_logging okEnv freshBuilder none "WARN").1,
   (c10_logging okEnv freshBuilder none "WARN").2.2.2.2.2.2.2⟩

/-- C5: once the scratch directory has been created, Build invokes its
removal on every exit path; a removal failure only adds a log line and the
removal outcome never changes the returned result; and no removal is
invoked when no scratch directory was created. -/
theorem c5_scratch_cleanup (env : Env) (b0 : Builder) (g : String → Option BuildError) :
    ((Build env b0).scratchCreated = true →
      ∃ dir, env.mkdirTemp = .ok dir ∧ (Build env b0).removeCalls = [dir])
    ∧ ((Build env b0).scratchCreated = false → (Build env b0).removeCalls = [])
    ∧ (Build { env with removeAllErr := g } b0).result = (Build env b0).result
    ∧ (∀ dir e, env.mkdirTemp = .ok dir → (Build env b0).scratchCreated = true →
        env.removeAllErr dir = some e →
        "failed to remove scratch dir" ∈ (Build env b0).world.logs) := by
  have main :
      ((Build env b0).scratchCreated = true →
        ∃ dir, env.mkdirTemp = .ok dir ∧ (Build env b0).removeCalls = [dir])
      ∧ ((Build env b0).scratchCreated = false → (Build env b0).removeCalls = [])
      ∧ (∀ dir e, env.mkdirTemp = .ok dir → (Build env b0).scratchCreated = true →
          env.removeAllErr dir = some e →
          "failed to remove scratch dir" ∈ (Build env b0).world.logs) := by
    rw [Build_eq]
    rcases h1 : resolvePCRSigner env (installLogger env b0) with e | b2
    all_goals try dsimp only
    · exact ⟨fun h => by simp at h, fun _ => rfl, fun dir e _ h => by simp at h⟩
    rcases h2 : resolveSBSigner env b2 with e | b3
    all_goals try dsimp only
    · exact ⟨fun h => by simp at h, fun _ => rfl, fun dir e _ h => by simp at h⟩
    rcases h3 : env.mkdirTemp with e | dir
    all_goals try dsimp only
    · exact ⟨fun h => by simp at h, fun _ => rfl, fun dir e he h => by simp at he⟩
    rcases h4 : buildInner env { b3 with scratchDir := dir } emptyWorld with ⟨res, b5, w5⟩
    all_goals try dsimp only
    refine ⟨fun _ => ⟨dir, rfl, rfl⟩, fun h => by simp at h, ?_⟩
    intro dir0 e0 hd _ hrm
    have hd0 : dir0 = dir := by
      cases hd
      rfl
    subst hd0
    rw [hrm]
    dsimp only
    simp
  refine ⟨main.1, main.2.1, ?_, main.2.2⟩
  have h1 : resolvePCRSigner { env with removeAllErr := g } = resolvePCRSigner env := rfl
  have h2 : resolveSBSigner { env with removeAllErr := g } = resolveSBSigner env := rfl
  have h3 : installLogger { env with removeAllErr := g } = installLogger env := rfl
  have h4 : buildInner { env with removeAllErr := g } = buildInner env := rfl
  have h5 : ({ env with removeAllErr := g } : Env).mkdirTemp = env.mkdirTemp := rfl
  rw [Build_eq, Build_eq, h1, h2, h3, h4, h5]
  rcases hr1 : resolvePCRSigner env (installLogger env b0) with e | b2
  all_goals try dsimp only
  all_goals try rfl
  rcases hr2 : resolveSBSigner env b2 with e | b3
  all_goals try dsimp only
  all_goals try rfl
  rcases hr3 : env.mkdirTemp with e | dir
  all_goals try dsimp only
  all_goals try rfl

/-- Witness for C5 at a concrete environment and builder, with a removal
oracle that fails: the scratch directory is still the one removal target,
the failure is logged, and the result is unchanged. -/
theorem c5_scratch_cleanup_witness :
    (Build okEnv freshBuilder).scratchCreated = true
    ∧ okEnv.mkdirTemp = .ok "/tmp/ukify1"
    ∧ (Build okEnv freshBuilder).removeCalls = ["/tmp/ukify1"]
    ∧ (Build { okEnv with removeAllErr := fun _ => some (.ext 9) } freshBuilder).result =
        (Build okEnv freshBuilder).result :=
  ⟨rfl, rfl,
    by
      obtain ⟨dir, hdir, hrm⟩ := (c5_scratch_cleanup okEnv freshBuilder
        (fun _ => some (.ext 9))).1 rfl
      have : dir = "/tmp/ukify1" := by
        cases hdir
        rfl
      rw [← this]
      exact hrm,
    (c5_scratch_cleanup okEnv freshBuilder (fun _ => some (.ext 9))).2.2.1⟩

/-- C4: the name-to-path mapping generatePCRSig passes to the Measurement
Engine holds exactly the sections currently flagged Measure; the call is
recorded with exactly that mapping; the appended PCRSig section always has
Measure false; and across any whole Build whose initial section list holds
no measured PCRSig section (in particular a fresh builder), no mapping
ever passed to the Measurement Engine contains the PCRSig name. -/
theorem c4_measurement_mapping (env : Env) (b0 b : Builder) (w : World)
    (hinv : PCRSigUnmeasured b0.sections) :
    (∀ n p, (n, p) ∈ pcrSigMapping b ↔
      ∃ s ∈ b.sections, s.Measure = true ∧ s.Name = n ∧ s.Path = p)
    ∧ (generatePCRSig env b w).2.2.measureCalls = w.measureCalls ++ [pcrSigMapping b]
    ∧ (∀ b1 w1, generatePCRSig env b w = (.ok, b1, w1) →
        ∃ p, b1 = { b with sections := b.sections ++ [⟨.PCRSig, p, false, true⟩] })
    ∧ (∀ m ∈ (Build env b0).world.measureCalls, ∀ pr ∈ m,
        pr.1 ≠ SectionName.PCRSig) := by
  refine ⟨?_, ?_, ?_, (Build_shape env b0).2.2 hinv⟩
  · intro n p
    simp only [pcrSigMapping, List.mem_map, List.mem_filter]
    constructor
    · rintro ⟨s, ⟨hmem, hM⟩, heq⟩
      rw [Prod.mk.injEq] at heq
      exact ⟨s, hmem, hM, heq.1, heq.2⟩
    · rintro ⟨s, hmem, hM, hn, hp⟩
      exact ⟨s, ⟨hmem, hM⟩, by rw [hn, hp]⟩
  · rcases hg : generatePCRSig env b w with ⟨r, b1, w1⟩
    dsimp only
    exact generatePCRSig_mc hg
  · intro b1 w1 h
    exact generatePCRSig_ok h

/-- Witness for C4 at a concrete environment and builder. -/
theorem c4_measurement_mapping_witness :
    PCRSigUnmeasured freshBuilder.sections
    ∧ ∀ m ∈ (Build okEnv freshBuilder).world.measureCalls, ∀ pr ∈ m,
        pr.1 ≠ SectionName.PCRSig :=
  ⟨fun s hs => by simp [freshBuilder] at hs,
   (c4_measurement_mapping okEnv freshBuilder freshBuilder emptyWorld
      (fun s hs => by simp [freshBuilder] at hs)).2.2.2⟩

/-- C9: Build never clears the section list: for every environment and
builder, the final section list extends the initial one; concretely,
calling Build a second time on the builder left by a successful first
Build makes the OSRel section name occur twice in the final list, instead
of at most once as in a fresh list. -/
theorem c9_sections_accumulate (env : Env) (b0 : Builder) :
    (∃ t, (Build env b0).builder.sections = b0.sections ++ t)
    ∧ ((Build okEnv (Build okEnv freshBuilder).builder).builder.sections.filter
        (fun s => decide (s.Name = SectionName.OSRel))).length = 2 := by
  constructor
  · obtain ⟨⟨t, ht, _⟩, _, _⟩ := Build_shape env b0
    exact ⟨t, ht⟩
  · rfl

/-- Witness for C9 at a concrete environment and builder. -/
theorem c9_sections_accumulate_witness :
    ∃ t, (Build okEnv freshBuilder).builder.sections = freshBuilder.sections ++ t :=
  (c9_sections_accumulate okEnv freshBuilder).1

end Ukify
